import Mathlib

/-!
Shallow embedding of the CA-MATCH TA-matching backend
(src/backend/app/services/matching_engine.py, skill_graph.py, feedback.py)
for checking the repository's natural-language specification.

Conventions of the embedding:
* Python floats are modelled as rationals (ℚ); Python ints as ℤ / ℕ.
* Python strings are Lean `String`s; all character-level operations
  (strip / lower / upper / split) are modelled char-by-char on `String.data`
  for the ASCII range, which is what the repository's data uses.
* `json.loads` and `float(...)`-parsing of strings are library calls, not
  repository code; they are passed in as explicit function parameters
  (`loads`, `pfloat`) so every theorem holds for an arbitrary parser and
  concrete witnesses pick a concrete one.
* Fallible code paths (Python code that raises: `AttributeError` on
  `.items()` of a non-dict, `TypeError` on iterating a non-iterable) are
  modelled with `Option`, `none` standing for the raised exception.
* The ORM entity classes (app/models.py in the repository) do not carry the
  matching fields in the copy under src/; the fields the engine reads
  (`faculty_requested`, `grade_in_course`, `basket_grade_average`,
  `competency_matrix`, `resume_text`, `transcript_text`, `skill_keywords`,
  `instructor_feedback`) are modelled from the spec's data model (§3),
  which gives their types; only the fields the services read are carried.
-/

/-! ## Python text primitives (ASCII model) -/

/-- Whitespace characters removed by Python `str.strip()`. -/
def pyIsSpace (c : Char) : Bool :=
  c == ' ' || c == '\t' || c == '\n' || c == '\r' ||
    c == Char.ofNat 11 || c == Char.ofNat 12

/-- Python `str.strip()` on a character list. -/
def pyStrip (l : List Char) : List Char :=
  ((l.dropWhile pyIsSpace).reverse.dropWhile pyIsSpace).reverse

/-- ASCII model of Python `str.lower()` on one character. -/
def pyLowerChar (c : Char) : Char :=
  if 'A' ≤ c ∧ c ≤ 'Z' then Char.ofNat (c.toNat + 32) else c

/-- ASCII model of Python `str.upper()` on one character. -/
def pyUpperChar (c : Char) : Char :=
  if 'a' ≤ c ∧ c ≤ 'z' then Char.ofNat (c.toNat - 32) else c

/-- Python `str.lower()`. -/
def pyLower (l : List Char) : List Char := l.map pyLowerChar

/-- Python `str.upper()`. -/
def pyUpper (l : List Char) : List Char := l.map pyUpperChar

/-- Python `str.split(",")`. -/
def pySplitComma : List Char → List (List Char)
  | [] => [[]]
  | c :: rest =>
    if c = ',' then [] :: pySplitComma rest
    else
      match pySplitComma rest with
      | [] => [[c]]
      | p :: ps => (c :: p) :: ps

/-- Truthiness of an `Optional[str]`: `None` and the empty string are falsy. -/
def pyTruthy : Option String → Bool
  | none => false
  | some s => !s.data.isEmpty

/-! ## A model of parsed JSON values (what `json.loads` may return) -/

inductive JVal where
  | jnull : JVal
  | jbool (b : Bool) : JVal
  | jnum (q : ℚ) : JVal
  | jstr (s : String) : JVal
  | jarr (items : List JVal) : JVal
  | jobj (fields : List (String × JVal)) : JVal

/-- Python `str(item)` on a JSON-decoded value, used by
`_parse_competencies` on list items.  Faithful on strings (the case the
repository's data exercises); the renderings of the other cases stand in
for Python's `str()` and are never empty, which is all the code observes. -/
def pyStr : JVal → String
  | .jnull => "None"
  | .jbool b => if b then "True" else "False"
  | .jnum q => toString q
  | .jstr s => s
  | .jarr _ => "[...]"
  | .jobj _ => "\x7b...\x7d"

/-- Python `float(value)` applied to a JSON-decoded value inside
`try: ... except (TypeError, ValueError): weight = 1.0`:
numbers pass through, booleans coerce to 0/1, strings go through the
string-to-float parser (`pfloat`), everything else raises `TypeError`,
which the `except` turns into `1.0`. -/
def pyFloatJson (pfloat : List Char → Option ℚ) : JVal → ℚ
  | .jnum q => q
  | .jbool b => if b then 1 else 0
  | .jstr s =>
    match pfloat s.data with
    | some q => q
    | none => 1
  | _ => 1

/-! ## Data model (spec §3; fields read by the services) -/

inductive AssignmentStatus where
  | pending : AssignmentStatus
  | confirmed : AssignmentStatus
deriving DecidableEq

structure Assignment where
  student_id : ℕ
  course_id : ℕ
  status : AssignmentStatus := .pending
deriving DecidableEq

structure InstructorFeedback where
  course_id : ℕ
  rating : ℤ
deriving DecidableEq

structure StudentCoursePreference where
  course_id : ℕ
  rank : ℤ
  faculty_requested : Bool
  grade_in_course : Option String
  basket_grade_average : Option String
deriving DecidableEq

structure Course where
  id : ℕ
  track : Option String
  vacancies : ℤ
  competency_matrix : Option String
  assignments : List Assignment
deriving DecidableEq

structure StudentProfile where
  id : ℕ
  interests : Option String
  resume_text : Option String
  transcript_text : Option String
  skill_keywords : Option String
  preferences : List StudentCoursePreference
  instructor_feedback : List InstructorFeedback
deriving DecidableEq

/-! ## services/feedback.py -/

/-- `normalize_rating`: convert a 1-5 rating scale into a 0-100 score. -/
def normalize_rating (rating : ℤ) : ℚ :=
  let bounded : ℤ := max 1 (min 5 rating)
  (bounded : ℚ) / 5 * 100

/-! ## services/matching_engine.py : scoring helpers -/

/-- `_preference_score`. -/
def preference_score (preference : StudentCoursePreference) : ℚ :=
  max 0 (100 - ((preference.rank : ℚ) - 1) * 10)

/-- `_interest_bonus`: 15.0 when the course's track value appears
(case- and whitespace-insensitively) among the student's comma-separated
interests, else 0. -/
def interest_bonus (student : StudentProfile) (course : Course) : ℚ :=
  if pyTruthy student.interests = false ∨ course.track = none then 0
  else
    match student.interests, course.track with
    | some interests, some track =>
      let normalized_interests :=
        ((pySplitComma interests.data).map (fun i => pyLower (pyStrip i))).filter
          (fun i => i ≠ [])
      if pyLower track.data ∈ normalized_interests then 15 else 0
    | _, _ => 0

/-- `_feedback_score`: average normalized rating over the student's
feedback entries for this course; else half the overall average; else 0. -/
def feedback_score (student : StudentProfile) (course : Course) : ℚ :=
  let feedback_entries := student.instructor_feedback
  let course_specific :=
    (feedback_entries.filter (fun e => e.course_id == course.id)).map
      (fun e => normalize_rating e.rating)
  if course_specific ≠ [] then
    course_specific.sum / course_specific.length
  else
    let overall := feedback_entries.map (fun e => normalize_rating e.rating)
    if overall ≠ [] then overall.sum / overall.length * (1 / 2)
    else 0

/-- `GRADE_SCALE` (keys are already stripped upper-case strings). -/
def GRADE_SCALE : List (List Char × ℚ) :=
  [("A+".data, 433 / 100), ("A".data, 4), ("A-".data, 367 / 100),
   ("B+".data, 333 / 100), ("B".data, 3), ("B-".data, 267 / 100),
   ("C+".data, 233 / 100), ("C".data, 2), ("C-".data, 167 / 100),
   ("D".data, 1), ("F".data, 0)]

/-- The tail of `_grade_to_score` shared by every branch that produced a
number: GPA-scale values are rescaled to 0-100, percentages pass through
clamped, larger values clamp to 100. -/
def gradeRescale (numeric : ℚ) : ℚ :=
  if numeric ≤ 433 / 100 then max 0 (min 100 (numeric / (433 / 100) * 100))
  else if numeric ≤ 100 then max 0 (min 100 numeric)
  else 100

/-- The `raw_grade.strip().upper()` normalisation of `_grade_to_score`. -/
def normalizeGradeKey (s : String) : List Char := pyUpper (pyStrip s.data)

/-- `_grade_to_score` on an `Optional[str]` grade.  `pfloat` models the
`float(value)` string parse (`none` = `ValueError`).  (The source's
non-string numeric branch is dead for the `str | None` typed fields and is
not modelled.) -/
def grade_to_score (pfloat : List Char → Option ℚ) : Option String → ℚ
  | none => 0
  | some raw_grade =>
    let value := normalizeGradeKey raw_grade
    if value = [] then 0
    else
      match List.lookup value GRADE_SCALE with
      | some numeric => gradeRescale numeric
      | none =>
        match pfloat value with
        | some numeric => gradeRescale numeric
        | none => 0

/-! ## services/skill_graph.py -/

/-- The module's `_STOPWORDS` set. -/
def STOPWORDS : List (List Char) :=
  ["and".data, "or".data, "for".data, "the".data, "with".data, "using".data,
   "from".data, "into".data, "via".data, "to".data, "in".data, "of".data,
   "a".data, "an".data]

/-- The character class `[A-Za-z0-9+/#&-]` of `_TOKEN_PATTERN`. -/
def isTokenChar (c : Char) : Bool :=
  c.isAlpha || c.isDigit || c == '+' || c == '/' || c == '#' || c == '&' || c == '-'

/-- `_TOKEN_PATTERN.findall`: left-to-right scan for maximal matches of
`[A-Za-z][A-Za-z0-9+/#&-]{2,}` (an alphabetic character followed greedily
by at least two characters of the token class); on a failed match the scan
advances one position, on a successful match it resumes after the match. -/
def findallTokens : List Char → List (List Char)
  | [] => []
  | c :: rest =>
    if c.isAlpha then
      let run := rest.takeWhile isTokenChar
      if 2 ≤ run.length then (c :: run) :: findallTokens (rest.drop run.length)
      else findallTokens rest
    else findallTokens rest
termination_by l => l.length
decreasing_by
  · simp only [List.length_drop, List.length_cons]
    omega
  · simp only [List.length_cons]
    omega
  · simp only [List.length_cons]
    omega

/-- The per-token normalisation loop body of `extract_keywords_from_texts`:
`token.strip().lower()`, dropped when empty or a stop-word. -/
def keywordOfToken (token : List Char) : Option (List Char) :=
  let normalized := pyLower (pyStrip token)
  if normalized = [] ∨ normalized ∈ STOPWORDS then none else some normalized

/-- `SkillGraphMiner.extract_keywords_from_texts`. -/
def extract_keywords_from_texts (texts : List (Option String)) : Finset (List Char) :=
  texts.foldl (fun keywords text =>
    match text with
    | none => keywords
    | some t =>
      if t.data = [] then keywords
      else keywords ∪ ((findallTokens t.data).filterMap keywordOfToken).toFinset) ∅

/-- `SkillGraphMiner.deserialize_keywords`.  `loads` models `json.loads`
(`none` = `JSONDecodeError`).  Iterating the decoded value follows Python:
a list yields its items (only `str` items pass the `isinstance` check), a
string yields its one-character strings, a dict yields its keys; iterating
a number / bool / null raises `TypeError`, modelled as `none`. -/
def deserialize_keywords (loads : String → Option JVal) (raw : Option String) :
    Option (Finset (List Char)) :=
  match raw with
  | none => some ∅
  | some s =>
    if s.data = [] then some ∅
    else
      match loads s with
      | none =>
        some (((pySplitComma s.data).filterMap (fun item =>
          let st := pyStrip item
          if st = [] then none else some (pyLower st))).toFinset)
      | some (.jarr items) =>
        some ((items.filterMap (fun item =>
          match item with
          | .jstr s' =>
            let st := pyStrip s'.data
            if st = [] then none else some (pyLower st)
          | _ => none)).toFinset)
      | some (.jstr s') =>
        some ((s'.data.filterMap (fun ch =>
          let st := pyStrip [ch]
          if st = [] then none else some (pyLower st))).toFinset)
      | some (.jobj fields) =>
        some ((fields.filterMap (fun kv =>
          let st := pyStrip kv.1.data
          if st = [] then none else some (pyLower st))).toFinset)
      | some _ => none

/-- Assignment `competencies[normalized] = w` on the insertion-ordered
dict modelled as an association list: overwrite in place, or append. -/
def dictInsert (k : List Char) (v : ℚ) :
    List (List Char × ℚ) → List (List Char × ℚ)
  | [] => [(k, v)]
  | (k', v') :: rest =>
    if k' = k then (k', v) :: rest else (k', v') :: dictInsert k v rest

/-- The weighted-mapping loop of `_parse_competencies`: each key is
stripped and lowered, empty keys are skipped, each weight goes through
`float(...)` with exceptions defaulting to 1.0 and is clamped to ≥ 0. -/
def parseCompObj (pfloat : List Char → Option ℚ)
    (source : List (String × JVal)) : List (List Char × ℚ) :=
  source.foldl (fun competencies kv =>
    let normalized := pyLower (pyStrip kv.1.data)
    if normalized = [] then competencies
    else dictInsert normalized (max 0 (pyFloatJson pfloat kv.2)) competencies) []

/-- The flat-list loop of `_parse_competencies`: uniform weight 1.0. -/
def parseCompList (items : List JVal) : List (List Char × ℚ) :=
  items.foldl (fun competencies item =>
    let normalized := pyLower (pyStrip (pyStr item).data)
    if normalized = [] then competencies
    else dictInsert normalized 1 competencies) []

/-- The comma-separated fallback loop of `_parse_competencies`:
uniform weight 1.0. -/
def parseCompSplit (data : List Char) : List (List Char × ℚ) :=
  (pySplitComma data).foldl (fun competencies part =>
    let normalized := pyLower (pyStrip part)
    if normalized = [] then competencies
    else dictInsert normalized 1 competencies) []

/-- `SkillGraphMiner._parse_competencies` on the course's raw
`competency_matrix` string.  The per-course cache of the source is
observationally the identity (same course id, same parse) and is modelled
away.  `none` models the uncaught `AttributeError` raised when the decoded
JSON is an object whose `"skills"` entry is not itself an object
(`source.items()` on a non-dict). -/
def parse_competencies (loads : String → Option JVal)
    (pfloat : List Char → Option ℚ) (raw : Option String) :
    Option (List (List Char × ℚ)) :=
  match raw with
  | none => some []
  | some s =>
    if s.data = [] then some []
    else
      match loads s with
      | some (.jobj fields) =>
        match (List.lookup "skills" fields).getD (.jobj fields) with
        | .jobj source => some (parseCompObj pfloat source)
        | _ => none
      | some (.jarr items) => some (parseCompList items)
      | _ => some (parseCompSplit s.data)

/-- `SkillGraphMiner.student_keywords`: stored keywords when non-empty,
else extraction from resume/transcript text. -/
def student_keywords (loads : String → Option JVal) (student : StudentProfile) :
    Option (Finset (List Char)) :=
  match deserialize_keywords loads student.skill_keywords with
  | none => none
  | some stored =>
    if stored ≠ ∅ then some stored
    else some (extract_keywords_from_texts [student.resume_text, student.transcript_text])

structure SkillMatchScore where
  matched_skills : Finset (List Char)
  coverage : ℚ
  weighted_score : ℚ
deriving DecidableEq

/-- `SkillGraphMiner.score_match`.  The Python set comprehension
`{skill for skill in student_skills if skill in competencies}` is realised
as the sub-list of competency entries whose key lies in the student's set:
under the no-duplicate-keys invariant of `_parse_competencies` its length
is the set's size and its values sum to
`sum(competencies[skill] for skill in matched)`. -/
def score_match (loads : String → Option JVal) (pfloat : List Char → Option ℚ)
    (student : StudentProfile) (course : Course) : Option SkillMatchScore :=
  match student_keywords loads student with
  | none => none
  | some student_skills =>
    match parse_competencies loads pfloat course.competency_matrix with
    | none => none
    | some competencies =>
      if student_skills = ∅ ∨ competencies = [] then some ⟨∅, 0, 0⟩
      else
        let matchedEntries := competencies.filter (fun e => e.1 ∈ student_skills)
        if matchedEntries = [] then some ⟨∅, 0, 0⟩
        else
          let total_weight₀ := (competencies.map (fun e => e.2)).sum
          let total_weight :=
            if total_weight₀ ≤ 0 then (competencies.length : ℚ) else total_weight₀
          let matched_weight := (matchedEntries.map (fun e => e.2)).sum
          some ⟨(matchedEntries.map (fun e => e.1)).toFinset,
                (matchedEntries.length : ℚ) / (competencies.length : ℚ),
                matched_weight / total_weight * 100⟩

/-! ## services/matching_engine.py : evaluate_candidate and run_matching -/

/-- `evaluate_candidate` (the composite lexicographic score); `none`
propagates a crash of `score_match`. -/
def evaluate_candidate (loads : String → Option JVal)
    (pfloat : List Char → Option ℚ) (student : StudentProfile)
    (course : Course) : Option ℚ :=
  match score_match loads pfloat student course with
  | none => none
  | some skill_match =>
    let preference := student.preferences.find? (fun pref => pref.course_id == course.id)
    let pref_score : ℚ := match preference with
      | some p => preference_score p
      | none => 0
    let track_bonus := interest_bonus student course
    let application_bonus : ℚ :=
      if pyTruthy student.resume_text || pyTruthy student.transcript_text then 5 else 0
    let instructor_feedback_score := feedback_score student course
    let faculty_priority : ℚ := match preference with
      | some p => if p.faculty_requested then 1 else 0
      | none => 0
    let course_grade : ℚ := match preference with
      | some p => grade_to_score pfloat p.grade_in_course
      | none => 0
    let basket_grade : ℚ := match preference with
      | some p => grade_to_score pfloat p.basket_grade_average
      | none => 0
    some (faculty_priority * 1000000000000
      + course_grade * 1000000000
      + basket_grade * 1000000
      + pref_score * 1000
      + skill_match.weighted_score * 100
      + instructor_feedback_score * 10
      + track_bonus
      + application_bonus)

structure CandidateScore where
  student : StudentProfile
  course : Course
  score : ℚ
deriving DecidableEq

/-- The candidate-evaluation loop of `run_matching` over the already
preference-filtered, not-yet-assigned students (a crash aborts the run). -/
def evalCandidates (loads : String → Option JVal) (pfloat : List Char → Option ℚ)
    (course : Course) : List StudentProfile → Option (List CandidateScore)
  | [] => some []
  | student :: rest =>
    match evaluate_candidate loads pfloat student course with
    | none => none
    | some score =>
      match evalCandidates loads pfloat course rest with
      | none => none
      | some cs => some (CandidateScore.mk student course score :: cs)

/-- Stable insertion of a candidate into a list sorted by strictly
descending score: the candidate passes every earlier-placed candidate of
strictly greater score and stops before the first of less-or-equal score. -/
def insertCandidateDesc (x : CandidateScore) :
    List CandidateScore → List CandidateScore
  | [] => [x]
  | y :: ys =>
    if x.score < y.score then y :: insertCandidateDesc x ys else x :: y :: ys

/-- `candidate_scores.sort(key=lambda cs: cs.score, reverse=True)`: Python's
sort is stable, and a stable descending sort is unique as a function, so it
is modelled by stable insertion sort. -/
def sortByScoreDesc : List CandidateScore → List CandidateScore
  | [] => []
  | x :: xs => insertCandidateDesc x (sortByScoreDesc xs)

/-- The per-course body of `run_matching`'s loop: skip a course with no
remaining vacancies, otherwise score, sort, select the top
`vacancies` candidates, create their pending assignments, extend the
existing-keys set, and append the rest to the skipped list.  (The in-place
`course.vacancies` decrement of the source only mutates the course entity
for the caller to persist; it is not read again inside the run.) -/
def matchCourse (loads : String → Option JVal) (pfloat : List Char → Option ℚ)
    (students : List StudentProfile) (existing_keys : List (ℕ × ℕ))
    (course : Course) : Option (List Assignment × List ℕ × List (ℕ × ℕ)) :=
  let vacancies : ℤ := course.vacancies - (course.assignments.length : ℤ)
  if vacancies ≤ 0 then some ([], [], existing_keys)
  else
    let eligible := students.filter (fun student =>
      (student.preferences.any (fun pref => pref.course_id == course.id)) &&
      !(existing_keys.contains (student.id, course.id)))
    match evalCandidates loads pfloat course eligible with
    | none => none
    | some candidate_scores =>
      let sorted := sortByScoreDesc candidate_scores
      let selected := sorted.take vacancies.toNat
      let created := selected.map (fun cs => Assignment.mk cs.student.id course.id .pending)
      let keys := created.foldl (fun ks a => (a.student_id, a.course_id) :: ks) existing_keys
      let skipped := (sorted.drop vacancies.toNat).map (fun cs => cs.student.id)
      some (created, skipped, keys)

/-- The course loop of `run_matching`, threading the existing-assignment
key set and concatenating per-course assignment and skipped lists in
course order. -/
def run_matching_courses (loads : String → Option JVal)
    (pfloat : List Char → Option ℚ) (students : List StudentProfile) :
    List Course → List (ℕ × ℕ) → Option (List Assignment × List ℕ)
  | [], _ => some ([], [])
  | course :: rest, keys =>
    match matchCourse loads pfloat students keys course with
    | none => none
    | some (created, skipped, keys') =>
      match run_matching_courses loads pfloat students rest keys' with
      | none => none
      | some (assignments, skipped_students) =>
        some (created ++ assignments, skipped ++ skipped_students)

/-- The data the three queries at the head of `run_matching` read. -/
structure MatchDb where
  courses : List Course
  students : List StudentProfile
  assignments : List Assignment

/-- The `courses_query` of `run_matching`: all of the store's courses, or
the ones of the given id set (Python truthiness: `None` and the empty
iterable both mean no filter). -/
def matchingCourses (db : MatchDb) (course_ids : Option (List ℕ)) : List Course :=
  match course_ids with
  | none => db.courses
  | some ids =>
    if ids = [] then db.courses else db.courses.filter (fun c => ids.contains c.id)

/-- The students query of `run_matching`: student profiles holding at least
one preference referencing one of the filtered courses (the legacy ORM query
deduplicates entities, so each profile appears once). -/
def matchingStudents (db : MatchDb) (courses : List Course) : List StudentProfile :=
  db.students.filter (fun s =>
    s.preferences.any (fun p => (courses.map (fun c => c.id)).contains p.course_id))

/-- `run_matching`: course filter by the optional id set, the
students-with-a-preference query, the existing (student, course) key set,
then the course loop. -/
def run_matching (loads : String → Option JVal) (pfloat : List Char → Option ℚ)
    (db : MatchDb) (course_ids : Option (List ℕ)) :
    Option (List Assignment × List ℕ) :=
  let courses := matchingCourses db course_ids
  let students := matchingStudents db courses
  let existing_assignment_keys := db.assignments.map (fun a => (a.student_id, a.course_id))
  run_matching_courses loads pfloat students courses existing_assignment_keys

/-! ## Named signal projections of `evaluate_candidate` (statement
vocabulary; each is definitionally the corresponding local of the source) -/

/-- The preference record `evaluate_candidate` resolves for the course. -/
def findPreference (student : StudentProfile) (course : Course) :
    Option StudentCoursePreference :=
  student.preferences.find? (fun pref => pref.course_id == course.id)

/-- Band-1 signal: the faculty-requested flag (0 or 1). -/
def facultySignal (student : StudentProfile) (course : Course) : ℚ :=
  match findPreference student course with
  | some p => if p.faculty_requested then 1 else 0
  | none => 0

/-- Band-2 signal: the grade-in-course converted to 0-100. -/
def courseGradeSignal (pfloat : List Char → Option ℚ) (student : StudentProfile)
    (course : Course) : ℚ :=
  match findPreference student course with
  | some p => grade_to_score pfloat p.grade_in_course
  | none => 0

/-- Band-3 signal: the basket-grade-average converted to 0-100. -/
def basketGradeSignal (pfloat : List Char → Option ℚ) (student : StudentProfile)
    (course : Course) : ℚ :=
  match findPreference student course with
  | some p => grade_to_score pfloat p.basket_grade_average
  | none => 0

/-- Band-4 signal: the preference-rank score. -/
def prefRankSignal (student : StudentProfile) (course : Course) : ℚ :=
  match findPreference student course with
  | some p => preference_score p
  | none => 0

/-- Band-8 signal: the application-completeness bonus. -/
def applicationBonusSignal (student : StudentProfile) : ℚ :=
  if pyTruthy student.resume_text || pyTruthy student.transcript_text then 5 else 0

/-- The magnitude-band composition of `evaluate_candidate` (lines 109-118
of matching_engine.py) as a function of the eight signals. -/
def compositeScore (faculty_priority course_grade basket_grade pref_score
    skill feedback track_bonus application_bonus : ℚ) : ℚ :=
  faculty_priority * 1000000000000
    + course_grade * 1000000000
    + basket_grade * 1000000
    + pref_score * 1000
    + skill * 100
    + feedback * 10
    + track_bonus
    + application_bonus

/-- The documented range of each of the eight signals (spec §4.3): the
faculty flag is 0 or 1, the four grade/rank/skill/feedback bands lie in
[0,100], the track bonus is 0 or 15, the completeness bonus 0 or 5. -/
def signalRanges (faculty_priority course_grade basket_grade pref_score
    skill feedback track_bonus application_bonus : ℚ) : Prop :=
  (faculty_priority = 0 ∨ faculty_priority = 1) ∧
  (0 ≤ course_grade ∧ course_grade ≤ 100) ∧
  (0 ≤ basket_grade ∧ basket_grade ≤ 100) ∧
  (0 ≤ pref_score ∧ pref_score ≤ 100) ∧
  (0 ≤ skill ∧ skill ≤ 100) ∧
  (0 ≤ feedback ∧ feedback ≤ 100) ∧
  (track_bonus = 0 ∨ track_bonus = 15) ∧
  (application_bonus = 0 ∨ application_bonus = 5)

/-! ## Concrete parser instances and inputs for witnesses and
counterexamples -/

/-- `json.loads` on the strings the concrete inputs below use: none of them
is a valid JSON document, so decoding always fails. -/
def loadsFail : String → Option JVal := fun _ => none

/-- `float(...)` string-parsing on the strings the concrete inputs below
use: none of them is numeric, so parsing always fails. -/
def pfloatFail : List Char → Option ℚ := fun _ => none

/-- `json.loads` on the one JSON document the C10 counterexample uses:
the object `\x7b"skills": 1\x7d`. -/
def loadsSkillsNum : String → Option JVal := fun s =>
  if s = "\x7b\"skills\": 1\x7d" then some (.jobj [("skills", .jnum 1)]) else none

/-- Course 7: one vacancy, competency list "python", no assignments. -/
def cex2Course : Course :=
  { id := 7, track := none, vacancies := 1,
    competency_matrix := some "python", assignments := [] }

/-- Candidate X: rank-1 preference for course 7, nothing else. -/
def cex2X : StudentProfile :=
  { id := 1, interests := none, resume_text := none, transcript_text := none,
    skill_keywords := none,
    preferences := [{ course_id := 7, rank := 1, faculty_requested := false,
                      grade_in_course := none, basket_grade_average := none }],
    instructor_feedback := [] }

/-- Candidate Y: rank-2 preference for course 7, full skill match and a
top feedback rating. -/
def cex2Y : StudentProfile :=
  { id := 2, interests := none, resume_text := none, transcript_text := none,
    skill_keywords := some "python",
    preferences := [{ course_id := 7, rank := 2, faculty_requested := false,
                      grade_in_course := none, basket_grade_average := none }],
    instructor_feedback := [{ course_id := 7, rating := 5 }] }

/-- Course 5 with one vacancy already taken by student 9. -/
def cex3Course : Course :=
  { id := 5, track := none, vacancies := 1, competency_matrix := none,
    assignments := [{ student_id := 9, course_id := 5, status := .confirmed }] }

/-- Student 7: a remaining candidate (has a preference for course 5 and no
assignment to it). -/
def cex3Student : StudentProfile :=
  { id := 7, interests := none, resume_text := none, transcript_text := none,
    skill_keywords := none,
    preferences := [{ course_id := 5, rank := 1, faculty_requested := false,
                      grade_in_course := none, basket_grade_average := none }],
    instructor_feedback := [] }

/-- The store for the fully-assigned-course run. -/
def cex3Db : MatchDb :=
  { courses := [cex3Course], students := [cex3Student],
    assignments := [{ student_id := 9, course_id := 5, status := .confirmed }] }

/-- Course 1: one vacancy, no existing assignments. -/
def w1Course : Course :=
  { id := 1, track := none, vacancies := 1, competency_matrix := none,
    assignments := [] }

/-- Student 11, rank-1 preference for course 1. -/
def w1A : StudentProfile :=
  { id := 11, interests := none, resume_text := none, transcript_text := none,
    skill_keywords := none,
    preferences := [{ course_id := 1, rank := 1, faculty_requested := false,
                      grade_in_course := none, basket_grade_average := none }],
    instructor_feedback := [] }

/-- Student 12, rank-2 preference for course 1. -/
def w1B : StudentProfile :=
  { id := 12, interests := none, resume_text := none, transcript_text := none,
    skill_keywords := none,
    preferences := [{ course_id := 1, rank := 2, faculty_requested := false,
                      grade_in_course := none, basket_grade_average := none }],
    instructor_feedback := [] }

/-- The store for the one-vacancy, two-candidate run. -/
def w1Db : MatchDb :=
  { courses := [w1Course], students := [w1A, w1B], assignments := [] }

/-- Course 3, used by the concrete faculty-dominance pair. -/
def c4Course : Course :=
  { id := 3, track := none, vacancies := 1, competency_matrix := none,
    assignments := [] }

/-- Faculty-requested candidate with grade B, rank 3. -/
def c4X : StudentProfile :=
  { id := 31, interests := none, resume_text := none, transcript_text := none,
    skill_keywords := none,
    preferences := [{ course_id := 3, rank := 3, faculty_requested := true,
                      grade_in_course := some "B", basket_grade_average := none }],
    instructor_feedback := [] }

/-- Not-requested candidate with grade A, rank 1. -/
def c4Y : StudentProfile :=
  { id := 32, interests := none, resume_text := none, transcript_text := none,
    skill_keywords := none,
    preferences := [{ course_id := 3, rank := 1, faculty_requested := false,
                      grade_in_course := some "A", basket_grade_average := none }],
    instructor_feedback := [] }

/-- Student whose stored keywords decode to the JSON number 3 (iterating it
raises `TypeError` inside `deserialize_keywords`). -/
def c10Student : StudentProfile :=
  { id := 41, interests := none, resume_text := none, transcript_text := none,
    skill_keywords := some "python",
    preferences := [], instructor_feedback := [] }

/-- Course whose competency matrix is the JSON object `\x7b"skills": 1\x7d`:
`data.get("skills", data)` yields the number 1 and `.items()` raises. -/
def c10Course : Course :=
  { id := 42, track := none, vacancies := 1,
    competency_matrix := some "\x7b\"skills\": 1\x7d", assignments := [] }

/-! ## Shared helper lemmas -/

theorem normalize_rating_lb (r : ℤ) : 20 ≤ normalize_rating r := by
  unfold normalize_rating
  have h1 : (1 : ℤ) ≤ max 1 (min 5 r) := le_max_left _ _
  have h2 : (1 : ℚ) ≤ ((max 1 (min 5 r) : ℤ) : ℚ) := by exact_mod_cast h1
  linarith

theorem normalize_rating_ub (r : ℤ) : normalize_rating r ≤ 100 := by
  unfold normalize_rating
  have h1 : max 1 (min 5 r) ≤ (5 : ℤ) := max_le (by norm_num) (min_le_left _ _)
  have h2 : ((max 1 (min 5 r) : ℤ) : ℚ) ≤ 5 := by exact_mod_cast h1
  linarith

theorem normalize_rating_mono {r s : ℤ} (h : r ≤ s) :
    normalize_rating r ≤ normalize_rating s := by
  unfold normalize_rating
  have h1 : max 1 (min 5 r) ≤ max 1 (min 5 s) :=
    max_le_max le_rfl (min_le_min le_rfl h)
  have h2 : ((max 1 (min 5 r) : ℤ) : ℚ) ≤ ((max 1 (min 5 s) : ℤ) : ℚ) := by
    exact_mod_cast h1
  linarith

theorem list_avg_nonneg (l : List ℚ) (h : ∀ x ∈ l, 0 ≤ x) :
    0 ≤ l.sum / l.length := by
  have := List.sum_nonneg h
  positivity

theorem list_avg_le (l : List ℚ) (b : ℚ) (hb : 0 ≤ b) (h : ∀ x ∈ l, x ≤ b) :
    l.sum / l.length ≤ b := by
  rcases l with _ | ⟨a, l⟩
  · simpa using hb
  · have hlen : (0 : ℚ) < ((a :: l).length : ℚ) := by
      simp only [List.length_cons]
      positivity
    rw [div_le_iff₀ hlen]
    have := List.sum_le_card_nsmul (a :: l) b h
    simpa [nsmul_eq_mul, mul_comm] using this

theorem feedback_score_nonneg (s : StudentProfile) (c : Course) :
    0 ≤ feedback_score s c := by
  simp only [feedback_score]
  split
  · apply list_avg_nonneg
    intro x hx
    simp only [List.mem_map] at hx
    obtain ⟨e, _, rfl⟩ := hx
    linarith [normalize_rating_lb e.rating]
  · split
    · have h0 : 0 ≤ ((s.instructor_feedback.map fun e => normalize_rating e.rating).sum /
          ((s.instructor_feedback.map fun e => normalize_rating e.rating).length : ℚ)) := by
        apply list_avg_nonneg
        intro x hx
        simp only [List.mem_map] at hx
        obtain ⟨e, _, rfl⟩ := hx
        linarith [normalize_rating_lb e.rating]
      linarith
    · norm_num

theorem feedback_score_ub (s : StudentProfile) (c : Course) :
    feedback_score s c ≤ 100 := by
  simp only [feedback_score]
  split
  · apply list_avg_le _ _ (by norm_num)
    intro x hx
    simp only [List.mem_map] at hx
    obtain ⟨e, _, rfl⟩ := hx
    exact normalize_rating_ub e.rating
  · split
    · have h0 : ((s.instructor_feedback.map fun e => normalize_rating e.rating).sum /
          ((s.instructor_feedback.map fun e => normalize_rating e.rating).length : ℚ)) ≤ 100 := by
        apply list_avg_le _ _ (by norm_num)
        intro x hx
        simp only [List.mem_map] at hx
        obtain ⟨e, _, rfl⟩ := hx
        exact normalize_rating_ub e.rating
      linarith
    · norm_num

theorem gradeRescale_nonneg (q : ℚ) : 0 ≤ gradeRescale q := by
  unfold gradeRescale
  split
  · exact le_max_left _ _
  · split
    · exact le_max_left _ _
    · norm_num

theorem gradeRescale_ub (q : ℚ) : gradeRescale q ≤ 100 := by
  unfold gradeRescale
  split
  · exact max_le (by norm_num) (min_le_left _ _)
  · split
    · exact max_le (by norm_num) (min_le_left _ _)
    · norm_num

theorem gradeRescale_gpa (q : ℚ) (h0 : 0 ≤ q) (h1 : q ≤ 433 / 100) :
    gradeRescale q = q / (433 / 100) * 100 := by
  unfold gradeRescale
  rw [if_pos h1]
  have h2 : 0 ≤ q / (433 / 100) * 100 := by positivity
  have h3 : q / (433 / 100) ≤ 1 := (div_le_one (by norm_num)).mpr h1
  have h4 : q / (433 / 100) * 100 ≤ 100 := by linarith
  rw [min_eq_right h4, max_eq_right h2]

theorem grade_to_score_nonneg (pfloat : List Char → Option ℚ)
    (g : Option String) : 0 ≤ grade_to_score pfloat g := by
  unfold grade_to_score
  rcases g with _ | s
  · norm_num
  · dsimp only
    split
    · norm_num
    · split
      · exact gradeRescale_nonneg _
      · split
        · exact gradeRescale_nonneg _
        · norm_num

theorem grade_to_score_ub (pfloat : List Char → Option ℚ)
    (g : Option String) : grade_to_score pfloat g ≤ 100 := by
  unfold grade_to_score
  rcases g with _ | s
  · norm_num
  · dsimp only
    split
    · norm_num
    · split
      · exact gradeRescale_ub _
      · split
        · exact gradeRescale_ub _
        · norm_num

theorem GRADE_SCALE_entry_facts :
    ∀ p ∈ GRADE_SCALE, 0 ≤ p.2 ∧ p.2 ≤ 433 / 100 ∧ p.1 ≠ [] := by
  intro p hp
  fin_cases hp <;> exact ⟨by norm_num, by norm_num, by decide⟩

theorem lookup_GRADE_SCALE_facts (k : List Char) (g : ℚ)
    (h : List.lookup k GRADE_SCALE = some g) :
    0 ≤ g ∧ g ≤ 433 / 100 ∧ k ≠ [] := by
  obtain ⟨l₁, l₂, heq, -⟩ := List.lookup_eq_some_iff.mp h
  have hmem : (k, g) ∈ GRADE_SCALE := by
    rw [heq]
    simp
  have := GRADE_SCALE_entry_facts (k, g) hmem
  exact ⟨this.1, this.2.1, this.2.2⟩

theorem interest_bonus_cases (s : StudentProfile) (c : Course) :
    interest_bonus s c = 0 ∨ interest_bonus s c = 15 := by
  unfold interest_bonus
  split
  · exact Or.inl rfl
  · split
    · dsimp only
      split
      · exact Or.inr rfl
      · exact Or.inl rfl
    · exact Or.inl rfl

theorem preference_score_nonneg (p : StudentCoursePreference) :
    0 ≤ preference_score p := le_max_left _ _

/-! ## C9 : normalize_rating -/

/-- C9: for every integer rating r, `normalize_rating r` equals
`clamp(r,1,5)/5*100`, lies in [20,100], and is monotone non-decreasing. -/
theorem normalize_rating_spec (r s : ℤ) (h : r ≤ s) :
    normalize_rating r = ((max 1 (min 5 r) : ℤ) : ℚ) / 5 * 100 ∧
    20 ≤ normalize_rating r ∧ normalize_rating r ≤ 100 ∧
    normalize_rating r ≤ normalize_rating s :=
  ⟨rfl, normalize_rating_lb r, normalize_rating_ub r, normalize_rating_mono h⟩

/-- Witness for C9 at ratings 2 and 4. -/
theorem normalize_rating_spec_witness :
    normalize_rating 2 = ((max 1 (min 5 (2 : ℤ)) : ℤ) : ℚ) / 5 * 100 ∧
    20 ≤ normalize_rating 2 ∧ normalize_rating 2 ≤ 100 ∧
    normalize_rating 2 ≤ normalize_rating 4 :=
  normalize_rating_spec 2 4 (by norm_num)

/-! ## C5 : _grade_to_score -/

/-- C5: `_grade_to_score` returns 0 on a missing or blank grade; rescales a
letter grade found in the table (after strip + upper-casing) by
`(gpa/4.33)*100`; parses an unknown string as a number and rescales values
≤ 4.33 to 0-100, passes values ≤ 100 through clamped to [0,100], clamps
larger values to 100; and returns 0 when the parse fails. -/
theorem grade_to_score_spec (pfloat : List Char → Option ℚ) (s : String) :
    (grade_to_score pfloat none = 0) ∧
    (normalizeGradeKey s = [] → grade_to_score pfloat (some s) = 0) ∧
    (∀ g, List.lookup (normalizeGradeKey s) GRADE_SCALE = some g →
      grade_to_score pfloat (some s) = g / (433 / 100) * 100) ∧
    (List.lookup (normalizeGradeKey s) GRADE_SCALE = none →
      normalizeGradeKey s ≠ [] →
      (∀ q, pfloat (normalizeGradeKey s) = some q →
        (q ≤ 433 / 100 →
          grade_to_score pfloat (some s) = max 0 (min 100 (q / (433 / 100) * 100))) ∧
        (433 / 100 < q → q ≤ 100 →
          grade_to_score pfloat (some s) = max 0 (min 100 q)) ∧
        (100 < q → grade_to_score pfloat (some s) = 100)) ∧
      (pfloat (normalizeGradeKey s) = none → grade_to_score pfloat (some s) = 0)) := by
  refine ⟨rfl, ?_, ?_, ?_⟩
  · intro h
    simp only [grade_to_score]
    rw [if_pos h]
  · intro g hg
    obtain ⟨hg0, hg1, hne⟩ := lookup_GRADE_SCALE_facts _ _ hg
    simp only [grade_to_score]
    rw [if_neg hne, hg]
    exact gradeRescale_gpa g hg0 hg1
  · intro hnone hne
    constructor
    · intro q hq
      refine ⟨?_, ?_, ?_⟩
      · intro hle
        simp only [grade_to_score]
        rw [if_neg hne, hnone, hq]
        simp only [gradeRescale]
        rw [if_pos hle]
      · intro hgt hle
        simp only [grade_to_score]
        rw [if_neg hne, hnone, hq]
        simp only [gradeRescale]
        rw [if_neg (not_le.mpr hgt), if_pos hle]
      · intro hgt
        simp only [grade_to_score]
        rw [if_neg hne, hnone, hq]
        simp only [gradeRescale]
        rw [if_neg (not_le.mpr (lt_trans (by norm_num) hgt)),
          if_neg (not_le.mpr hgt)]
    · intro hq
      simp only [grade_to_score]
      rw [if_neg hne, hnone, hq]

/-- Witness for C5 at the letter grade "b" (case-insensitive table hit). -/
theorem grade_to_score_spec_witness :
    grade_to_score pfloatFail (some "b") = 3 / (433 / 100) * 100 :=
  (grade_to_score_spec pfloatFail "b").2.2.1 3 (by decide)

/-! ## C6 : _feedback_score -/

/-- C6: `_feedback_score` averages the normalized ratings of the student's
feedback entries for the given course; with no course-specific entries it
returns half the average of all of the student's normalized ratings; with
no feedback at all it returns 0. -/
theorem feedback_score_spec (s : StudentProfile) (c : Course) :
    ((s.instructor_feedback.filter (fun e => e.course_id == c.id)) ≠ [] →
      feedback_score s c =
        ((s.instructor_feedback.filter (fun e => e.course_id == c.id)).map
          (fun e => normalize_rating e.rating)).sum /
        ((s.instructor_feedback.filter (fun e => e.course_id == c.id)).length : ℚ)) ∧
    ((s.instructor_feedback.filter (fun e => e.course_id == c.id)) = [] →
      s.instructor_feedback ≠ [] →
      feedback_score s c =
        (s.instructor_feedback.map (fun e => normalize_rating e.rating)).sum /
          (s.instructor_feedback.length : ℚ) * (1 / 2)) ∧
    (s.instructor_feedback = [] → feedback_score s c = 0) := by
  refine ⟨?_, ?_, ?_⟩
  · intro h
    have hmap : (s.instructor_feedback.filter (fun e => e.course_id == c.id)).map
        (fun e => normalize_rating e.rating) ≠ [] := by
      simpa using h
    simp only [feedback_score]
    rw [if_pos hmap]
    simp [List.length_map]
  · intro h1 h2
    have hmap : (s.instructor_feedback.filter (fun e => e.course_id == c.id)).map
        (fun e => normalize_rating e.rating) = [] := by
      simp [h1]
    have hover : s.instructor_feedback.map (fun e => normalize_rating e.rating) ≠ [] := by
      simpa using h2
    simp only [feedback_score]
    rw [if_neg (by simpa using hmap), if_pos hover]
    simp [List.length_map]
  · intro h
    simp [feedback_score, h]

/-- Witness for C6: course-specific average, system-wide fallback halved,
and the no-feedback default, each at a concrete input. -/
theorem feedback_score_spec_witness :
    feedback_score cex2Y cex2Course = 100 ∧
    feedback_score cex2Y cex3Course = 50 ∧
    feedback_score cex2X cex2Course = 0 := by
  refine ⟨?_, ?_, ?_⟩
  · have h := (feedback_score_spec cex2Y cex2Course).1 (by decide)
    rw [h]
    norm_num [cex2Y, cex2Course, normalize_rating]
  · have h := (feedback_score_spec cex2Y cex3Course).2.1 (by decide) (by decide)
    rw [h]
    norm_num [cex2Y, cex3Course, normalize_rating]
  · exact (feedback_score_spec cex2X cex2Course).2.2 rfl

/-! ## Weight non-negativity of _parse_competencies -/

theorem dictInsert_nonneg (k : List Char) (v : ℚ) (hv : 0 ≤ v) :
    ∀ (l : List (List Char × ℚ)), (∀ e ∈ l, 0 ≤ e.2) →
      ∀ e ∈ dictInsert k v l, 0 ≤ e.2 := by
  intro l
  induction l with
  | nil =>
    intro _ e he
    simp only [dictInsert, List.mem_singleton] at he
    subst he
    exact hv
  | cons a l ih =>
    intro hl e he
    rcases a with ⟨k', v'⟩
    by_cases hk : k' = k
    · simp only [dictInsert, if_pos hk, List.mem_cons] at he
      rcases he with rfl | he
      · exact hv
      · exact hl e (List.mem_cons_of_mem _ he)
    · simp only [dictInsert, if_neg hk, List.mem_cons] at he
      rcases he with rfl | he
      · exact hl (k', v') (List.mem_cons_self _ _)
      · exact ih (fun x hx => hl x (List.mem_cons_of_mem _ hx)) e he

theorem foldl_dict_nonneg {α : Type} (g : α → List Char) (w : α → ℚ)
    (hw : ∀ a, 0 ≤ w a) :
    ∀ (l : List α) (init : List (List Char × ℚ)), (∀ e ∈ init, 0 ≤ e.2) →
      ∀ e ∈ l.foldl
        (fun acc a => if g a = [] then acc else dictInsert (g a) (w a) acc) init,
        0 ≤ e.2 := by
  intro l
  induction l with
  | nil => intro init h; simpa using h
  | cons a l ih =>
    intro init h
    simp only [List.foldl_cons]
    apply ih
    by_cases hg : g a = []
    · simpa [hg] using h
    · simpa [hg] using dictInsert_nonneg (g a) (w a) (hw a) init h

theorem parseCompObj_nonneg (pfloat : List Char → Option ℚ)
    (source : List (String × JVal)) :
    ∀ e ∈ parseCompObj pfloat source, 0 ≤ e.2 := by
  intro e he
  simp only [parseCompObj] at he
  exact foldl_dict_nonneg (fun kv => pyLower (pyStrip kv.1.data))
    (fun kv => max 0 (pyFloatJson pfloat kv.2))
    (fun a => le_max_left 0 _) source [] (by simp) e he

theorem parseCompList_nonneg (items : List JVal) :
    ∀ e ∈ parseCompList items, 0 ≤ e.2 := by
  intro e he
  simp only [parseCompList] at he
  exact foldl_dict_nonneg (fun item => pyLower (pyStrip (pyStr item).data))
    (fun _ => 1) (fun a => by norm_num) items [] (by simp) e he

theorem parseCompSplit_nonneg (data : List Char) :
    ∀ e ∈ parseCompSplit data, 0 ≤ e.2 := by
  intro e he
  simp only [parseCompSplit] at he
  exact foldl_dict_nonneg (fun part => pyLower (pyStrip part))
    (fun _ => 1) (fun a => by norm_num) (pySplitComma data) [] (by simp) e he

theorem parse_competencies_nonneg (loads : String → Option JVal)
    (pfloat : List Char → Option ℚ) (raw : Option String)
    (comps : List (List Char × ℚ))
    (h : parse_competencies loads pfloat raw = some comps) :
    ∀ e ∈ comps, 0 ≤ e.2 := by
  rcases raw with _ | s
  · simp only [parse_competencies, Option.some.injEq] at h
    subst h
    simp
  · simp only [parse_competencies] at h
    by_cases hs : s.data = []
    · rw [if_pos hs] at h
      simp only [Option.some.injEq] at h
      subst h
      simp
    · rw [if_neg hs] at h
      split at h
      · split at h
        · simp only [Option.some.injEq] at h
          subst h
          exact parseCompObj_nonneg _ _
        · exact absurd h (by simp)
      · simp only [Option.some.injEq] at h
        subst h
        exact parseCompList_nonneg _
      · simp only [Option.some.injEq] at h
        subst h
        exact parseCompSplit_nonneg _

theorem sum_map_filter_le {α : Type} (l : List α) (p : α → Bool) (f : α → ℚ)
    (h : ∀ x ∈ l, 0 ≤ f x) :
    ((l.filter p).map f).sum ≤ (l.map f).sum := by
  induction l with
  | nil => simp
  | cons a l ih =>
    have ha := h a (List.mem_cons_self a l)
    have hl := fun x hx => h x (List.mem_cons_of_mem a hx)
    by_cases hp : p a
    · simp only [List.filter_cons_of_pos hp, List.map_cons, List.sum_cons]
      linarith [ih hl]
    · simp only [List.filter_cons_of_neg hp, List.map_cons, List.sum_cons]
      linarith [ih hl]

theorem sum_map_nonneg {α : Type} (l : List α) (f : α → ℚ)
    (h : ∀ x ∈ l, 0 ≤ f x) : 0 ≤ (l.map f).sum := by
  apply List.sum_nonneg
  intro x hx
  simp only [List.mem_map] at hx
  obtain ⟨a, ha, rfl⟩ := hx
  exact h a ha

/-- Case analysis of `score_match` in terms of the student's keyword set
and the parsed competency map. -/
theorem score_match_cases (loads : String → Option JVal)
    (pfloat : List Char → Option ℚ) (st : StudentProfile) (c : Course)
    (skills : Finset (List Char)) (comps : List (List Char × ℚ))
    (hk : student_keywords loads st = some skills)
    (hp : parse_competencies loads pfloat c.competency_matrix = some comps) :
    (skills = ∅ ∨ comps = [] → score_match loads pfloat st c = some ⟨∅, 0, 0⟩) ∧
    (comps.filter (fun e => e.1 ∈ skills) = [] →
      score_match loads pfloat st c = some ⟨∅, 0, 0⟩) ∧
    (¬(skills = ∅ ∨ comps = []) → comps.filter (fun e => e.1 ∈ skills) ≠ [] →
      score_match loads pfloat st c = some
        ⟨((comps.filter (fun e => e.1 ∈ skills)).map (fun e => e.1)).toFinset,
         ((comps.filter (fun e => e.1 ∈ skills)).length : ℚ) / (comps.length : ℚ),
         ((comps.filter (fun e => e.1 ∈ skills)).map (fun e => e.2)).sum /
           (if (comps.map (fun e => e.2)).sum ≤ 0 then (comps.length : ℚ)
            else (comps.map (fun e => e.2)).sum) * 100⟩) := by
  refine ⟨?_, ?_, ?_⟩
  · intro hempty
    simp only [score_match, hk, hp]
    rw [if_pos hempty]
  · intro hmat
    simp only [score_match, hk, hp]
    by_cases hempty : skills = ∅ ∨ comps = []
    · rw [if_pos hempty]
    · rw [if_neg hempty, if_pos hmat]
  · intro hempty hmat
    simp only [score_match, hk, hp]
    rw [if_neg hempty, if_neg hmat]

/-- Bounds of every result `score_match` actually returns. -/
theorem score_match_bounds (loads : String → Option JVal)
    (pfloat : List Char → Option ℚ) (st : StudentProfile) (c : Course)
    (m : SkillMatchScore) (hm : score_match loads pfloat st c = some m) :
    0 ≤ m.weighted_score ∧ m.weighted_score ≤ 100 ∧
    0 ≤ m.coverage ∧ m.coverage ≤ 1 := by
  simp only [score_match] at hm
  split at hm
  · exact absurd hm (by simp)
  · rename_i skills hk
    split at hm
    · exact absurd hm (by simp)
    · rename_i comps hp
      have hnn : ∀ e ∈ comps, 0 ≤ e.2 := parse_competencies_nonneg _ _ _ _ hp
      split at hm
      · simp only [Option.some.injEq] at hm
        subst hm
        norm_num
      · split at hm
        · simp only [Option.some.injEq] at hm
          subst hm
          norm_num
        · rename_i hempty hmat
          simp only [Option.some.injEq] at hm
          subst hm
          have hcne : comps ≠ [] := (not_or.mp hempty).2
          have hlen : 0 < (comps.length : ℚ) := by
            exact_mod_cast List.length_pos.mpr hcne
          have h1 : 0 ≤ ((comps.filter (fun e => e.1 ∈ skills)).map
              (fun e => e.2)).sum :=
            sum_map_nonneg _ _ (fun x hx => hnn x (List.mem_of_mem_filter hx))
          have h2 : ((comps.filter (fun e => e.1 ∈ skills)).map
              (fun e => e.2)).sum ≤ (comps.map (fun e => e.2)).sum :=
            sum_map_filter_le _ _ _ hnn
          have hflen : ((comps.filter (fun e => e.1 ∈ skills)).length : ℚ) ≤
              (comps.length : ℚ) := by
            exact_mod_cast List.length_filter_le _ _
          have hfnn : (0 : ℚ) ≤
              ((comps.filter (fun e => e.1 ∈ skills)).length : ℚ) := by
            positivity
          by_cases htw : (comps.map (fun e => e.2)).sum ≤ 0
          · have hmw : ((comps.filter (fun e => e.1 ∈ skills)).map
                (fun e => e.2)).sum = 0 := le_antisymm (le_trans h2 htw) h1
            refine ⟨?_, ?_, ?_, ?_⟩
            · simp only [SkillMatchScore.weighted_score, if_pos htw, hmw]
              norm_num
            · simp only [SkillMatchScore.weighted_score, if_pos htw, hmw]
              norm_num
            · simp only [SkillMatchScore.coverage]
              positivity
            · simp only [SkillMatchScore.coverage]
              rw [div_le_one hlen]
              exact hflen
          · push_neg at htw
            refine ⟨?_, ?_, ?_, ?_⟩
            · simp only [SkillMatchScore.weighted_score, if_neg (not_le.mpr htw)]
              have := div_nonneg h1 (le_of_lt htw)
              linarith
            · simp only [SkillMatchScore.weighted_score, if_neg (not_le.mpr htw)]
              have := (div_le_one htw).mpr h2
              linarith
            · simp only [SkillMatchScore.coverage]
              positivity
            · simp only [SkillMatchScore.coverage]
              rw [div_le_one hlen]
              exact hflen

/-! ## C7 : score_match output -/

/-- C7: `score_match` returns weighted score 0 and an empty matched set
whenever the student's keyword set or the parsed competency map is empty or
no keyword matches; otherwise its weighted score equals
(matched weight sum / total weight sum) × 100 and lies in [0,100]. -/
theorem score_match_spec (loads : String → Option JVal)
    (pfloat : List Char → Option ℚ) (st : StudentProfile) (c : Course)
    (skills : Finset (List Char)) (comps : List (List Char × ℚ))
    (m : SkillMatchScore)
    (hk : student_keywords loads st = some skills)
    (hp : parse_competencies loads pfloat c.competency_matrix = some comps)
    (hm : score_match loads pfloat st c = some m) :
    (skills = ∅ ∨ comps = [] ∨ comps.filter (fun e => e.1 ∈ skills) = [] →
      m = ⟨∅, 0, 0⟩) ∧
    (¬(skills = ∅ ∨ comps = []) → comps.filter (fun e => e.1 ∈ skills) ≠ [] →
      m.weighted_score =
        ((comps.filter (fun e => e.1 ∈ skills)).map (fun e => e.2)).sum /
          (comps.map (fun e => e.2)).sum * 100 ∧
      0 ≤ m.weighted_score ∧ m.weighted_score ≤ 100) := by
  have cases := score_match_cases loads pfloat st c skills comps hk hp
  constructor
  · intro h
    have hz : score_match loads pfloat st c = some ⟨∅, 0, 0⟩ := by
      rcases h with h | h | h
      · exact cases.1 (Or.inl h)
      · exact cases.1 (Or.inr h)
      · exact cases.2.1 h
    rw [hm] at hz
    simpa using hz
  · intro hempty hmat
    have heq := cases.2.2 hempty hmat
    rw [hm] at heq
    simp only [Option.some.injEq] at heq
    subst heq
    have hnn : ∀ e ∈ comps, 0 ≤ e.2 := parse_competencies_nonneg _ _ _ _ hp
    refine ⟨?_, (score_match_bounds loads pfloat st c _ hm).1,
      (score_match_bounds loads pfloat st c _ hm).2.1⟩
    by_cases htw : (comps.map (fun e => e.2)).sum ≤ 0
    · have h1 : 0 ≤ ((comps.filter (fun e => e.1 ∈ skills)).map
          (fun e => e.2)).sum :=
        sum_map_nonneg _ _ (fun x hx => hnn x (List.mem_of_mem_filter hx))
      have h2 : ((comps.filter (fun e => e.1 ∈ skills)).map
          (fun e => e.2)).sum ≤ (comps.map (fun e => e.2)).sum :=
        sum_map_filter_le _ _ _ hnn
      have hmw : ((comps.filter (fun e => e.1 ∈ skills)).map
          (fun e => e.2)).sum = 0 := le_antisymm (le_trans h2 htw) h1
      simp only [SkillMatchScore.weighted_score, if_pos htw, hmw]
      norm_num
    · simp only [SkillMatchScore.weighted_score, if_neg htw]

/-- Witness for C7: a full keyword match on a one-entry competency list. -/
theorem score_match_spec_witness :
    score_match loadsFail pfloatFail cex2Y cex2Course = some ⟨{"python".data}, 1, 100⟩ ∧
    (100 : ℚ) =
      (([("python".data, (1 : ℚ))].filter
          (fun e => e.1 ∈ ({"python".data} : Finset (List Char)))).map
        (fun e => e.2)).sum /
        (([("python".data, (1 : ℚ))]).map (fun e => e.2)).sum * 100 ∧
    (0 : ℚ) ≤ 100 ∧ (100 : ℚ) ≤ 100 := by
  have hsm : score_match loadsFail pfloatFail cex2Y cex2Course =
      some ⟨{"python".data}, 1, 100⟩ := by
    have h := (score_match_cases loadsFail pfloatFail cex2Y cex2Course {"python".data}
      [("python".data, 1)] rfl rfl).2.2 (by decide) (by decide)
    rw [h]
    norm_num
  have h := (score_match_spec loadsFail pfloatFail cex2Y cex2Course
    {"python".data} [("python".data, 1)] ⟨{"python".data}, 1, 100⟩ rfl rfl hsm).2
    (by decide) (by decide)
  exact ⟨hsm, h.1, h.2.1.trans h.2.2, h.2.2⟩

/-! ## C10 : division safety of score_match (amended) -/

/-- C10 (amended): competency weights are clamped to ≥ 0 during parsing,
the denominator `score_match` divides by is strictly positive whenever a
match exists (falling back to the entry count when the weight sum is ≤ 0),
and every result `score_match` returns has weighted score in [0,100] and
coverage in [0,1].  (Totality fails: see the counterexample, where parsing
raises.) -/
theorem score_match_division_safety (loads : String → Option JVal)
    (pfloat : List Char → Option ℚ) (st : StudentProfile) (c : Course) :
    (∀ comps, parse_competencies loads pfloat c.competency_matrix = some comps →
      ∀ e ∈ comps, 0 ≤ e.2) ∧
    (∀ skills comps, student_keywords loads st = some skills →
      parse_competencies loads pfloat c.competency_matrix = some comps →
      comps.filter (fun e => e.1 ∈ skills) ≠ [] →
      0 < (if (comps.map (fun e => e.2)).sum ≤ 0 then (comps.length : ℚ)
           else (comps.map (fun e => e.2)).sum)) ∧
    (∀ m, score_match loads pfloat st c = some m →
      0 ≤ m.weighted_score ∧ m.weighted_score ≤ 100 ∧
      0 ≤ m.coverage ∧ m.coverage ≤ 1) := by
  refine ⟨fun comps hp => parse_competencies_nonneg _ _ _ comps hp, ?_,
    fun m hm => score_match_bounds loads pfloat st c m hm⟩
  intro skills comps _ _ hmat
  have hcne : comps ≠ [] := by
    intro hnil
    subst hnil
    simp at hmat
  have hlen : 0 < (comps.length : ℚ) := by
    exact_mod_cast List.length_pos.mpr hcne
  split
  · exact hlen
  · rename_i htw
    push_neg at htw
    exact htw

/-- Counterexample for C10 as stated: `score_match` is not total.  With the
stored competency matrix `\x7b"skills": 1\x7d` (a JSON object whose
`"skills"` entry is the number 1), `_parse_competencies` evaluates
`source.items()` on a non-dict and raises `AttributeError` (modelled as
`none`), so `score_match` raises instead of returning a result. -/
theorem score_match_crash_cex :
    parse_competencies loadsSkillsNum pfloatFail c10Course.competency_matrix = none ∧
    score_match loadsSkillsNum pfloatFail c10Student c10Course = none :=
  ⟨rfl, rfl⟩

/-! ## Character-level lemmas for the keyword pipeline -/

theorem char_le_iff (a b : Char) : a ≤ b ↔ a.toNat ≤ b.toNat := by
  rw [Char.le_def, UInt32.le_def, BitVec.le_def]
  rfl

theorem char_toNat_ofNat (m : Nat) (h : m < 55296) : (Char.ofNat m).toNat = m := by
  unfold Char.ofNat
  rw [dif_pos (Or.inl (by omega))]
  simp only [Char.ofNatAux, Char.toNat, UInt32.ofNat']
  simp [UInt32.toNat, BitVec.toNat_ofNat]

theorem upperRange_iff (c : Char) :
    ('A' ≤ c ∧ c ≤ 'Z') ↔ (65 ≤ c.toNat ∧ c.toNat ≤ 90) := by
  rw [char_le_iff, char_le_iff]
  exact Iff.rfl

theorem isAlpha_iff (c : Char) :
    c.isAlpha = true ↔
      (65 ≤ c.toNat ∧ c.toNat ≤ 90) ∨ (97 ≤ c.toNat ∧ c.toNat ≤ 122) := by
  simp only [Char.isAlpha, Char.isUpper, Char.isLower, Bool.or_eq_true,
    Bool.and_eq_true, decide_eq_true_eq, ge_iff_le]
  constructor
  · rintro (⟨h1, h2⟩ | ⟨h1, h2⟩)
    · exact Or.inl ⟨by simpa [UInt32.le_def, BitVec.le_def] using h1,
        by simpa [UInt32.le_def, BitVec.le_def] using h2⟩
    · exact Or.inr ⟨by simpa [UInt32.le_def, BitVec.le_def] using h1,
        by simpa [UInt32.le_def, BitVec.le_def] using h2⟩
  · rintro (⟨h1, h2⟩ | ⟨h1, h2⟩)
    · exact Or.inl ⟨by simpa [UInt32.le_def, BitVec.le_def] using h1,
        by simpa [UInt32.le_def, BitVec.le_def] using h2⟩
    · exact Or.inr ⟨by simpa [UInt32.le_def, BitVec.le_def] using h1,
        by simpa [UInt32.le_def, BitVec.le_def] using h2⟩

theorem isDigit_iff (c : Char) :
    c.isDigit = true ↔ (48 ≤ c.toNat ∧ c.toNat ≤ 57) := by
  simp only [Char.isDigit, Bool.and_eq_true, decide_eq_true_eq, ge_iff_le]
  constructor
  · rintro ⟨h1, h2⟩
    exact ⟨by simpa [UInt32.le_def, BitVec.le_def] using h1,
      by simpa [UInt32.le_def, BitVec.le_def] using h2⟩
  · rintro ⟨h1, h2⟩
    exact ⟨by simpa [UInt32.le_def, BitVec.le_def] using h1,
      by simpa [UInt32.le_def, BitVec.le_def] using h2⟩

theorem isTokenChar_toNat_ge (c : Char) (h : isTokenChar c = true) :
    35 ≤ c.toNat := by
  simp only [isTokenChar, Bool.or_eq_true, beq_iff_eq] at h
  rcases h with ((((((h | h) | h) | h) | h) | h) | h)
  · rcases (isAlpha_iff c).mp h with ⟨h1, _⟩ | ⟨h1, _⟩ <;> omega
  · rcases (isDigit_iff c).mp h with ⟨h1, _⟩
    omega
  all_goals subst h; decide

theorem isAlpha_toNat_ge (c : Char) (h : c.isAlpha = true) : 35 ≤ c.toNat := by
  rcases (isAlpha_iff c).mp h with ⟨h1, _⟩ | ⟨h1, _⟩ <;> omega

theorem pyIsSpace_eq_false_of_ge (c : Char) (h : 35 ≤ c.toNat) :
    pyIsSpace c = false := by
  simp only [pyIsSpace, Bool.or_eq_false_iff, beq_eq_false_iff_ne, ne_eq]
  refine ⟨⟨⟨⟨⟨?_, ?_⟩, ?_⟩, ?_⟩, ?_⟩, ?_⟩ <;>
    · rintro rfl
      revert h
      decide

theorem pyLowerChar_upper (c : Char) (h : 65 ≤ c.toNat ∧ c.toNat ≤ 90) :
    (pyLowerChar c).toNat = c.toNat + 32 := by
  unfold pyLowerChar
  rw [if_pos ((upperRange_iff c).mpr h)]
  exact char_toNat_ofNat _ (by omega)

theorem pyLowerChar_not_upper (c : Char) (h : ¬(65 ≤ c.toNat ∧ c.toNat ≤ 90)) :
    pyLowerChar c = c := by
  unfold pyLowerChar
  rw [if_neg (fun hc => h ((upperRange_iff c).mp hc))]

theorem pyLowerChar_isAlpha (c : Char) (h : c.isAlpha = true) :
    (pyLowerChar c).isAlpha = true := by
  rcases (isAlpha_iff c).mp h with hu | hl
  · have := pyLowerChar_upper c hu
    exact (isAlpha_iff _).mpr (Or.inr (by omega))
  · rw [pyLowerChar_not_upper c (by omega)]
    exact h

theorem pyLowerChar_idem (c : Char) :
    pyLowerChar (pyLowerChar c) = pyLowerChar c := by
  by_cases hu : 65 ≤ c.toNat ∧ c.toNat ≤ 90
  · have h1 := pyLowerChar_upper c hu
    exact pyLowerChar_not_upper _ (by omega)
  · rw [pyLowerChar_not_upper c hu]
    exact pyLowerChar_not_upper c hu

theorem isTokenChar_pyLowerChar (c : Char) (h : isTokenChar c = true) :
    isTokenChar (pyLowerChar c) = true := by
  by_cases hu : 65 ≤ c.toNat ∧ c.toNat ≤ 90
  · have h1 := pyLowerChar_upper c hu
    have : (pyLowerChar c).isAlpha = true := (isAlpha_iff _).mpr (Or.inr (by omega))
    simp only [isTokenChar, this, Bool.true_or]
  · rw [pyLowerChar_not_upper c hu]
    exact h

/-! ## Token well-formedness (C8) -/

theorem dropWhile_eq_self_of {α : Type} (p : α → Bool) (l : List α)
    (h : ∀ c ∈ l, p c = false) : l.dropWhile p = l := by
  cases l with
  | nil => rfl
  | cons a l =>
    rw [List.dropWhile_cons_of_neg]
    simp [h a (List.mem_cons_self a l)]

theorem pyStrip_eq_self (l : List Char) (h : ∀ c ∈ l, pyIsSpace c = false) :
    pyStrip l = l := by
  unfold pyStrip
  rw [dropWhile_eq_self_of _ _ h,
    dropWhile_eq_self_of _ _ (fun c hc => h c (List.mem_reverse.mp hc)),
    List.reverse_reverse]

theorem findallTokens_shape : ∀ (l : List Char), ∀ t ∈ findallTokens l,
    ∃ c rest, t = c :: rest ∧ c.isAlpha = true ∧
      (∀ ch ∈ rest, isTokenChar ch = true) ∧ 2 ≤ rest.length := by
  intro l
  induction l using findallTokens.induct with
  | case1 =>
    simp [findallTokens]
  | case2 c rest halpha run hrun ih =>
    intro t ht
    have hrun' : 2 ≤ (rest.takeWhile isTokenChar).length := hrun
    simp only [findallTokens, if_pos halpha, if_pos hrun', List.mem_cons] at ht
    rcases ht with rfl | ht
    · exact ⟨c, rest.takeWhile isTokenChar, rfl, halpha,
        fun ch hch => List.mem_takeWhile_imp hch, hrun'⟩
    · exact ih t ht
  | case3 c rest halpha run hrun ih =>
    intro t ht
    have hrun' : ¬2 ≤ (rest.takeWhile isTokenChar).length := hrun
    simp only [findallTokens, if_pos halpha, if_neg hrun'] at ht
    exact ih t ht
  | case4 c rest halpha ih =>
    intro t ht
    simp only [findallTokens, if_neg halpha] at ht
    exact ih t ht

theorem keywordOfToken_shape (tok kw : List Char)
    (htok : ∃ c rest, tok = c :: rest ∧ c.isAlpha = true ∧
      (∀ ch ∈ rest, isTokenChar ch = true) ∧ 2 ≤ rest.length)
    (h : keywordOfToken tok = some kw) :
    3 ≤ kw.length ∧ pyLower kw = kw ∧ kw ∉ STOPWORDS ∧
      (∃ c rest, kw = c :: rest ∧ c.isAlpha = true ∧
        ∀ ch ∈ rest, isTokenChar ch = true) := by
  obtain ⟨c, rest, rfl, hc, hrest, hlen⟩ := htok
  have hns : ∀ ch ∈ c :: rest, pyIsSpace ch = false := by
    intro ch hch
    rcases List.mem_cons.mp hch with rfl | hch
    · exact pyIsSpace_eq_false_of_ge ch (isAlpha_toNat_ge ch hc)
    · exact pyIsSpace_eq_false_of_ge ch (isTokenChar_toNat_ge ch (hrest ch hch))
  have hstrip : pyStrip (c :: rest) = c :: rest := pyStrip_eq_self _ hns
  simp only [keywordOfToken, hstrip] at h
  split at h
  · exact absurd h (by simp)
  · rename_i hcond
    simp only [Option.some.injEq] at h
    subst h
    push_neg at hcond
    refine ⟨?_, ?_, hcond.2, ?_⟩
    · simp only [pyLower, List.length_map, List.length_cons]
      omega
    · simp only [pyLower, List.map_map]
      exact List.map_congr_left (fun x _ => pyLowerChar_idem x)
    · refine ⟨pyLowerChar c, pyLower rest, by simp [pyLower], pyLowerChar_isAlpha c hc, ?_⟩
      intro ch hch
      simp only [pyLower, List.mem_map] at hch
      obtain ⟨a, ha, rfl⟩ := hch
      exact isTokenChar_pyLowerChar a (hrest a ha)

theorem extract_keywords_mem (texts : List (Option String)) (kw : List Char)
    (h : kw ∈ extract_keywords_from_texts texts) :
    ∃ txt : String, some txt ∈ texts ∧
      kw ∈ (findallTokens txt.data).filterMap keywordOfToken := by
  suffices haux : ∀ (ts : List (Option String)) (acc : Finset (List Char)),
      kw ∈ ts.foldl (fun keywords text =>
        match text with
        | none => keywords
        | some t =>
          if t.data = [] then keywords
          else keywords ∪ ((findallTokens t.data).filterMap keywordOfToken).toFinset) acc →
      kw ∈ acc ∨ ∃ txt : String, some txt ∈ ts ∧
        kw ∈ (findallTokens txt.data).filterMap keywordOfToken by
    rcases haux texts ∅ h with hacc | hfound
    · exact absurd hacc (by simp)
    · exact hfound
  intro ts
  induction ts with
  | nil =>
    intro acc h'
    exact Or.inl h'
  | cons t ts ih =>
    intro acc h'
    simp only [List.foldl_cons] at h'
    rcases t with _ | txt
    · dsimp only at h'
      rcases ih _ h' with hstep | ⟨t2, ht2, hkw⟩
      · exact Or.inl hstep
      · exact Or.inr ⟨t2, List.mem_cons_of_mem _ ht2, hkw⟩
    · dsimp only at h'
      by_cases hempty : txt.data = []
      · rw [if_pos hempty] at h'
        rcases ih _ h' with hstep | ⟨t2, ht2, hkw⟩
        · exact Or.inl hstep
        · exact Or.inr ⟨t2, List.mem_cons_of_mem _ ht2, hkw⟩
      · rw [if_neg hempty] at h'
        rcases ih _ h' with hstep | ⟨t2, ht2, hkw⟩
        · rcases Finset.mem_union.mp hstep with hacc | hnew
          · exact Or.inl hacc
          · exact Or.inr ⟨txt, List.mem_cons_self _ _, List.mem_toFinset.mp hnew⟩
        · exact Or.inr ⟨t2, List.mem_cons_of_mem _ ht2, hkw⟩

/-! ## C8 : extracted keywords (amended) -/

/-- C8 (amended): every keyword returned by `extract_keywords_from_texts`
has length ≥ 3, is lower-cased, is not a stop-word, and consists of an
alphabetic first character followed by characters of the token class
`[A-Za-z0-9+/#&-]` — not necessarily all alphabetic (see the
counterexample). -/
theorem extract_keywords_shape (texts : List (Option String)) (kw : List Char)
    (h : kw ∈ extract_keywords_from_texts texts) :
    3 ≤ kw.length ∧ pyLower kw = kw ∧ kw ∉ STOPWORDS ∧
      (∃ c rest, kw = c :: rest ∧ c.isAlpha = true ∧
        ∀ ch ∈ rest, isTokenChar ch = true) := by
  obtain ⟨txt, -, hkw⟩ := extract_keywords_mem texts kw h
  obtain ⟨tok, htok, hsome⟩ := List.mem_filterMap.mp hkw
  exact keywordOfToken_shape tok kw (findallTokens_shape txt.data tok htok) hsome

/-- The keyword set of the text "C++" is the singleton `c++`. -/
theorem extract_keywords_cpp :
    extract_keywords_from_texts [some "C++"] = {"c++".data} := by
  have htok : findallTokens "C++".data = [['C', '+', '+']] := by
    simp +decide [findallTokens]
  simp +decide [extract_keywords_from_texts, htok, keywordOfToken]

/-- Witness for C8 (amended) at the keyword extracted from "C++". -/
theorem extract_keywords_shape_witness :
    3 ≤ "c++".data.length ∧ pyLower "c++".data = "c++".data ∧
    "c++".data ∉ STOPWORDS ∧
    (∃ c rest, "c++".data = c :: rest ∧ c.isAlpha = true ∧
      ∀ ch ∈ rest, isTokenChar ch = true) := by
  apply extract_keywords_shape [some "C++"] "c++".data
  rw [extract_keywords_cpp]
  exact Finset.mem_singleton_self _

/-- Counterexample for C8 as stated: the keyword `c++` extracted from the
text "C++" is not alphabetic-only (the regex token class also admits
`0-9 + / # & -` after the leading letter). -/
theorem extract_keywords_alpha_cex :
    "c++".data ∈ extract_keywords_from_texts [some "C++"] ∧
    ¬(∀ ch ∈ "c++".data, ch.isAlpha = true) := by
  constructor
  · rw [extract_keywords_cpp]
    exact Finset.mem_singleton_self _
  · decide

/-! ## C2 : magnitude-band dominance (amended) and C4 -/

/-- `evaluate_candidate` composes the eight signals through
`compositeScore` (whenever `score_match` returns). -/
theorem evaluate_candidate_eq (loads : String → Option JVal)
    (pfloat : List Char → Option ℚ) (s : StudentProfile) (c : Course) :
    evaluate_candidate loads pfloat s c =
      (score_match loads pfloat s c).map (fun m =>
        compositeScore (facultySignal s c) (courseGradeSignal pfloat s c)
          (basketGradeSignal pfloat s c) (prefRankSignal s c)
          m.weighted_score (feedback_score s c) (interest_bonus s c)
          (applicationBonusSignal s)) := by
  cases h : score_match loads pfloat s c <;>
    simp [evaluate_candidate, h, compositeScore, facultySignal, courseGradeSignal,
      basketGradeSignal, prefRankSignal, applicationBonusSignal, findPreference]

theorem interest_bonus_nonneg (s : StudentProfile) (c : Course) :
    0 ≤ interest_bonus s c := by
  rcases interest_bonus_cases s c with h | h <;> rw [h] <;> norm_num

theorem interest_bonus_le (s : StudentProfile) (c : Course) :
    interest_bonus s c ≤ 15 := by
  rcases interest_bonus_cases s c with h | h <;> rw [h] <;> norm_num

theorem applicationBonusSignal_cases (s : StudentProfile) :
    applicationBonusSignal s = 0 ∨ applicationBonusSignal s = 5 := by
  unfold applicationBonusSignal
  split
  · exact Or.inr rfl
  · exact Or.inl rfl

/-- C2 (amended): with every signal in its documented range, a strictly
larger signal dominates all lower bands combined for the faculty-flag band,
and for the grade-in-course and basket-grade bands whenever the winning
margin is at least one point.  (For the preference band and below a strict
increase does not dominate: see the counterexample, where one preference
rank — 10 points × 1000 — is outweighed by skill × 100 and feedback × 10.) -/
theorem compositeScore_dominance
    (f₁ cg₁ bg₁ pr₁ sk₁ fb₁ tb₁ ab₁ f₂ cg₂ bg₂ pr₂ sk₂ fb₂ tb₂ ab₂ : ℚ)
    (h₁ : signalRanges f₁ cg₁ bg₁ pr₁ sk₁ fb₁ tb₁ ab₁)
    (h₂ : signalRanges f₂ cg₂ bg₂ pr₂ sk₂ fb₂ tb₂ ab₂) :
    (f₂ < f₁ →
      compositeScore f₂ cg₂ bg₂ pr₂ sk₂ fb₂ tb₂ ab₂ <
        compositeScore f₁ cg₁ bg₁ pr₁ sk₁ fb₁ tb₁ ab₁) ∧
    (f₁ = f₂ → cg₂ + 1 ≤ cg₁ →
      compositeScore f₂ cg₂ bg₂ pr₂ sk₂ fb₂ tb₂ ab₂ <
        compositeScore f₁ cg₁ bg₁ pr₁ sk₁ fb₁ tb₁ ab₁) ∧
    (f₁ = f₂ → cg₁ = cg₂ → bg₂ + 1 ≤ bg₁ →
      compositeScore f₂ cg₂ bg₂ pr₂ sk₂ fb₂ tb₂ ab₂ <
        compositeScore f₁ cg₁ bg₁ pr₁ sk₁ fb₁ tb₁ ab₁) := by
  obtain ⟨hf₁, hcg₁, hbg₁, hpr₁, hsk₁, hfb₁, htb₁, hab₁⟩ := h₁
  obtain ⟨hf₂, hcg₂, hbg₂, hpr₂, hsk₂, hfb₂, htb₂, hab₂⟩ := h₂
  have htb₁' : 0 ≤ tb₁ ∧ tb₁ ≤ 15 := by rcases htb₁ with h | h <;> rw [h] <;> norm_num
  have htb₂' : 0 ≤ tb₂ ∧ tb₂ ≤ 15 := by rcases htb₂ with h | h <;> rw [h] <;> norm_num
  have hab₁' : 0 ≤ ab₁ ∧ ab₁ ≤ 5 := by rcases hab₁ with h | h <;> rw [h] <;> norm_num
  have hab₂' : 0 ≤ ab₂ ∧ ab₂ ≤ 5 := by rcases hab₂ with h | h <;> rw [h] <;> norm_num
  unfold compositeScore
  refine ⟨?_, ?_, ?_⟩
  · intro hf
    rcases hf₁ with rfl | rfl
    · rcases hf₂ with rfl | rfl
      · exact absurd hf (lt_irrefl 0)
      · exact absurd hf (by norm_num)
    · rcases hf₂ with rfl | rfl
      · linarith [htb₁'.1, htb₂'.2, hab₁'.1, hab₂'.2, hcg₁.1, hcg₂.2, hbg₁.1,
          hbg₂.2, hpr₁.1, hpr₂.2, hsk₁.1, hsk₂.2, hfb₁.1, hfb₂.2]
      · exact absurd hf (lt_irrefl 1)
  · intro hf hcg
    rw [← hf]
    linarith [htb₁'.1, htb₂'.2, hab₁'.1, hab₂'.2, hbg₁.1, hbg₂.2, hpr₁.1,
      hpr₂.2, hsk₁.1, hsk₂.2, hfb₁.1, hfb₂.2]
  · intro hf hcg hbg
    rw [← hf, hcg]
    linarith [htb₁'.1, htb₂'.2, hab₁'.1, hab₂'.2, hpr₁.1, hpr₂.2, hsk₁.1,
      hsk₂.2, hfb₁.1, hfb₂.2]

/-- Witness for C2 (amended): the faculty band at its extremes. -/
theorem compositeScore_dominance_witness :
    compositeScore 0 100 100 100 100 100 15 5 <
      compositeScore 1 0 0 0 0 0 0 0 :=
  (compositeScore_dominance 1 0 0 0 0 0 0 0 0 100 100 100 100 100 15 5
    (by norm_num [signalRanges]) (by norm_num [signalRanges])).1 (by norm_num)

/-- Counterexample for C2 as stated: candidates X and Y for course 7 agree
on every signal above the preference band, X's preference-rank score (100,
rank 1) strictly exceeds Y's (90, rank 2), every signal is inside its
documented range, yet Y's composite score is larger (Y has full skill match
100 and feedback 100, worth 10000 + 1000 > the 10000 preference gap). -/
theorem evaluate_candidate_band_cex :
    facultySignal cex2X cex2Course = facultySignal cex2Y cex2Course ∧
    courseGradeSignal pfloatFail cex2X cex2Course =
      courseGradeSignal pfloatFail cex2Y cex2Course ∧
    basketGradeSignal pfloatFail cex2X cex2Course =
      basketGradeSignal pfloatFail cex2Y cex2Course ∧
    prefRankSignal cex2X cex2Course = 100 ∧
    prefRankSignal cex2Y cex2Course = 90 ∧
    evaluate_candidate loadsFail pfloatFail cex2X cex2Course = some 100000 ∧
    evaluate_candidate loadsFail pfloatFail cex2Y cex2Course = some 101000 ∧
    (100000 : ℚ) < 101000 := by
  have hfX : findPreference cex2X cex2Course =
      some { course_id := 7, rank := 1, faculty_requested := false,
             grade_in_course := none, basket_grade_average := none } := rfl
  have hfY : findPreference cex2Y cex2Course =
      some { course_id := 7, rank := 2, faculty_requested := false,
             grade_in_course := none, basket_grade_average := none } := rfl
  have hsmX : score_match loadsFail pfloatFail cex2X cex2Course = some ⟨∅, 0, 0⟩ := rfl
  have hsmY : score_match loadsFail pfloatFail cex2Y cex2Course =
      some ⟨{"python".data}, 1, 100⟩ := by
    have h := (score_match_cases loadsFail pfloatFail cex2Y cex2Course {"python".data}
      [("python".data, 1)] rfl rfl).2.2 (by decide) (by decide)
    rw [h]
    norm_num
  have hfbX : feedback_score cex2X cex2Course = 0 := rfl
  have hfbY : feedback_score cex2Y cex2Course = 100 := by
    norm_num [feedback_score, cex2Y, cex2Course, normalize_rating]
  refine ⟨rfl, rfl, rfl, ?_, ?_, ?_, ?_, by norm_num⟩
  · rw [prefRankSignal, hfX]
    norm_num [preference_score]
  · rw [prefRankSignal, hfY]
    norm_num [preference_score]
  · simp only [evaluate_candidate, hsmX, hfX, hfbX]
    norm_num [preference_score, interest_bonus, grade_to_score, pyTruthy,
      cex2X, cex2Course]
  · simp only [evaluate_candidate, hsmY, hfY, hfbY]
    norm_num [preference_score, interest_bonus, grade_to_score, pyTruthy,
      cex2Y, cex2Course]

/-- C4: for the same course, a candidate whose preference has
`faculty_requested = True` and grade B strictly outscores a candidate with
`faculty_requested = False`, grade A and rank 1, for all values of the
lower-band signals of both candidates. -/
theorem faculty_request_beats_grade (loads : String → Option JVal)
    (pfloat : List Char → Option ℚ) (course : Course)
    (sX sY : StudentProfile) (pX pY : StudentCoursePreference) (vX vY : ℚ)
    (hfX : findPreference sX course = some pX)
    (hX1 : pX.faculty_requested = true)
    (hX2 : pX.grade_in_course = some "B")
    (hfY : findPreference sY course = some pY)
    (hY1 : pY.faculty_requested = false)
    (hY2 : pY.grade_in_course = some "A")
    (hY3 : pY.rank = 1)
    (hvX : evaluate_candidate loads pfloat sX course = some vX)
    (hvY : evaluate_candidate loads pfloat sY course = some vY) :
    vY < vX := by
  rw [evaluate_candidate_eq] at hvX hvY
  rcases hsmX : score_match loads pfloat sX course with _ | mX
  · rw [hsmX] at hvX
    exact absurd hvX (by simp)
  rcases hsmY : score_match loads pfloat sY course with _ | mY
  · rw [hsmY] at hvY
    exact absurd hvY (by simp)
  rw [hsmX] at hvX
  rw [hsmY] at hvY
  simp only [Option.map_some', Option.some.injEq] at hvX hvY
  subst hvX
  subst hvY
  have hfacX : facultySignal sX course = 1 := by
    simp [facultySignal, hfX, hX1]
  have hfacY : facultySignal sY course = 0 := by
    simp [facultySignal, hfY, hY1]
  have hprY : prefRankSignal sY course = 100 := by
    simp only [prefRankSignal, hfY, preference_score, hY3]
    norm_num
  have hcgX : 0 ≤ courseGradeSignal pfloat sX course := by
    simp only [courseGradeSignal, hfX]
    exact grade_to_score_nonneg _ _
  have hbgX : 0 ≤ basketGradeSignal pfloat sX course := by
    simp only [basketGradeSignal, hfX]
    exact grade_to_score_nonneg _ _
  have hprX : 0 ≤ prefRankSignal sX course := by
    simp only [prefRankSignal, hfX]
    exact preference_score_nonneg _
  have hskX : 0 ≤ mX.weighted_score :=
    (score_match_bounds loads pfloat sX course mX hsmX).1
  have hfbX : 0 ≤ feedback_score sX course := feedback_score_nonneg _ _
  have htbX : 0 ≤ interest_bonus sX course := interest_bonus_nonneg _ _
  have habX : 0 ≤ applicationBonusSignal sX := by
    rcases applicationBonusSignal_cases sX with h | h <;> rw [h] <;> norm_num
  have hcgY : courseGradeSignal pfloat sY course ≤ 100 := by
    simp only [courseGradeSignal, hfY]
    exact grade_to_score_ub _ _
  have hbgY : basketGradeSignal pfloat sY course ≤ 100 := by
    simp only [basketGradeSignal, hfY]
    exact grade_to_score_ub _ _
  have hskY : mY.weighted_score ≤ 100 :=
    (score_match_bounds loads pfloat sY course mY hsmY).2.1
  have hfbY : feedback_score sY course ≤ 100 := feedback_score_ub _ _
  have htbY : interest_bonus sY course ≤ 15 := interest_bonus_le _ _
  have habY : applicationBonusSignal sY ≤ 5 := by
    rcases applicationBonusSignal_cases sY with h | h <;> rw [h] <;> norm_num
  rw [compositeScore, compositeScore, hfacX, hfacY, hprY]
  linarith

/-- Witness for C4: faculty-requested grade-B rank-3 candidate 31 against
grade-A rank-1 candidate 32 on course 3. -/
theorem faculty_request_beats_grade_witness :
    (40000000000000 / 433 + 100000 : ℚ) <
      1000000000000 + 30000000000000 / 433 + 80000 := by
  have hgB : grade_to_score pfloatFail (some "B") = 30000 / 433 := by
    have h : grade_to_score pfloatFail (some "B") = gradeRescale 3 := rfl
    rw [h, gradeRescale, if_pos (by norm_num),
      min_eq_right (by norm_num), max_eq_right (by norm_num)]
    norm_num
  have hgA : grade_to_score pfloatFail (some "A") = 40000 / 433 := by
    have h : grade_to_score pfloatFail (some "A") = gradeRescale 4 := rfl
    rw [h, gradeRescale, if_pos (by norm_num),
      min_eq_right (by norm_num), max_eq_right (by norm_num)]
    norm_num
  have hvX : evaluate_candidate loadsFail pfloatFail c4X c4Course =
      some (1000000000000 + 30000000000000 / 433 + 80000) := by
    have hsm : score_match loadsFail pfloatFail c4X c4Course = some ⟨∅, 0, 0⟩ := rfl
    have hf : c4X.preferences.find? (fun p => p.course_id == c4Course.id) =
        some { course_id := 3, rank := 3, faculty_requested := true,
               grade_in_course := some "B", basket_grade_average := none } := rfl
    have hfb : feedback_score c4X c4Course = 0 := rfl
    have hg0 : grade_to_score pfloatFail none = 0 := rfl
    simp only [evaluate_candidate, hsm, hf, hfb]
    norm_num [preference_score, interest_bonus, pyTruthy, c4X, c4Course, hgB, hg0]
  have hvY : evaluate_candidate loadsFail pfloatFail c4Y c4Course =
      some (40000000000000 / 433 + 100000) := by
    have hsm : score_match loadsFail pfloatFail c4Y c4Course = some ⟨∅, 0, 0⟩ := rfl
    have hf : c4Y.preferences.find? (fun p => p.course_id == c4Course.id) =
        some { course_id := 3, rank := 1, faculty_requested := false,
               grade_in_course := some "A", basket_grade_average := none } := rfl
    have hfb : feedback_score c4Y c4Course = 0 := rfl
    have hg0 : grade_to_score pfloatFail none = 0 := rfl
    simp only [evaluate_candidate, hsm, hf, hfb]
    norm_num [preference_score, interest_bonus, pyTruthy, c4Y, c4Course, hgA, hg0]
  exact faculty_request_beats_grade loadsFail pfloatFail c4Course c4X c4Y
    _ _ _ _ rfl rfl rfl rfl rfl rfl rfl hvX hvY

/-! ## Per-course behaviour of run_matching (C1, C3) -/

theorem matchCourse_skip (loads : String → Option JVal)
    (pfloat : List Char → Option ℚ) (students : List StudentProfile)
    (keys : List (ℕ × ℕ)) (course : Course)
    (hfull : course.vacancies - (course.assignments.length : ℤ) ≤ 0) :
    matchCourse loads pfloat students keys course = some ([], [], keys) := by
  simp only [matchCourse]
  rw [if_pos hfull]

theorem matchCourse_spec (loads : String → Option JVal)
    (pfloat : List Char → Option ℚ) (students : List StudentProfile)
    (keys : List (ℕ × ℕ)) (course : Course) (created : List Assignment)
    (skipped : List ℕ) (keys' : List (ℕ × ℕ))
    (h : matchCourse loads pfloat students keys course = some (created, skipped, keys')) :
    (∀ a ∈ created, a.course_id = course.id) ∧
    ((created.length : ℤ) ≤ max 0 (course.vacancies - (course.assignments.length : ℤ))) := by
  simp only [matchCourse] at h
  split at h
  · rename_i hvac
    simp only [Option.some.injEq, Prod.mk.injEq] at h
    obtain ⟨h1, h2, h3⟩ := h
    subst h1
    constructor
    · simp
    · simp only [List.length_nil, Int.ofNat_zero]
      exact le_max_left _ _
  · rename_i hvac
    split at h
    · exact absurd h (by simp)
    · rename_i cs hcs
      simp only [Option.some.injEq, Prod.mk.injEq] at h
      obtain ⟨h1, h2, h3⟩ := h
      subst h1
      constructor
      · intro a ha
        simp only [List.mem_map] at ha
        obtain ⟨cs', -, rfl⟩ := ha
        rfl
      · rw [List.length_map]
        have h4 := List.length_take_le
          (course.vacancies - (course.assignments.length : ℤ)).toNat
          (sortByScoreDesc cs)
        have h0 : (0 : ℤ) ≤ course.vacancies - (course.assignments.length : ℤ) := by
          omega
        have h5 : (((course.vacancies - (course.assignments.length : ℤ)).toNat : ℕ) : ℤ) =
            course.vacancies - (course.assignments.length : ℤ) :=
          Int.toNat_of_nonneg h0
        have h6 : ((((sortByScoreDesc cs).take
            (course.vacancies - (course.assignments.length : ℤ)).toNat).length : ℕ) : ℤ) ≤
            (((course.vacancies - (course.assignments.length : ℤ)).toNat : ℕ) : ℤ) := by
          exact_mod_cast h4
        rw [h5] at h6
        exact le_trans h6 (le_max_right _ _)

theorem run_matching_courses_course_ids (loads : String → Option JVal)
    (pfloat : List Char → Option ℚ) (students : List StudentProfile) :
    ∀ (cs : List Course) (keys : List (ℕ × ℕ)) (A : List Assignment) (S : List ℕ),
      run_matching_courses loads pfloat students cs keys = some (A, S) →
      ∀ a ∈ A, ∃ c ∈ cs, a.course_id = c.id := by
  intro cs
  induction cs with
  | nil =>
    intro keys A S h a ha
    simp only [run_matching_courses, Option.some.injEq, Prod.mk.injEq] at h
    obtain ⟨h1, -⟩ := h
    subst h1
    exact absurd ha (by simp)
  | cons c rest ih =>
    intro keys A S h a ha
    simp only [run_matching_courses] at h
    rcases hres : matchCourse loads pfloat students keys c with _ | ⟨created, skipped, keys'⟩
    · rw [hres] at h
      simp at h
    · rw [hres] at h
      dsimp only at h
      rcases hres' : run_matching_courses loads pfloat students rest keys' with _ | ⟨A', S'⟩
      · rw [hres'] at h
        simp at h
      · rw [hres'] at h
        dsimp only at h
        simp only [Option.some.injEq, Prod.mk.injEq] at h
        obtain ⟨h1, -⟩ := h
        subst h1
        rcases List.mem_append.mp ha with hmem | hmem
        · exact ⟨c, List.mem_cons_self _ _,
            (matchCourse_spec _ _ _ _ _ _ _ _ hres).1 a hmem⟩
        · obtain ⟨c2, hc2, hid⟩ := ih keys' A' S' hres' a hmem
          exact ⟨c2, List.mem_cons_of_mem _ hc2, hid⟩

theorem run_matching_courses_filter_bound (loads : String → Option JVal)
    (pfloat : List Char → Option ℚ) (students : List StudentProfile) :
    ∀ (cs : List Course) (keys : List (ℕ × ℕ)) (A : List Assignment) (S : List ℕ),
      run_matching_courses loads pfloat students cs keys = some (A, S) →
      (cs.map (fun c => c.id)).Nodup →
      ∀ c ∈ cs, ((A.filter (fun a => a.course_id == c.id)).length : ℤ) ≤
        max 0 (c.vacancies - (c.assignments.length : ℤ)) := by
  intro cs
  induction cs with
  | nil =>
    intro keys A S h hnodup c hc
    exact absurd hc (by simp)
  | cons c' rest ih =>
    intro keys A S h hnodup c hc
    simp only [List.map_cons, List.nodup_cons] at hnodup
    obtain ⟨hhead, hrest⟩ := hnodup
    simp only [run_matching_courses] at h
    rcases hres : matchCourse loads pfloat students keys c' with _ | ⟨created, skipped, keys'⟩
    · rw [hres] at h
      simp at h
    · rw [hres] at h
      dsimp only at h
      rcases hres' : run_matching_courses loads pfloat students rest keys' with _ | ⟨A', S'⟩
      · rw [hres'] at h
        simp at h
      · rw [hres'] at h
        dsimp only at h
        simp only [Option.some.injEq, Prod.mk.injEq] at h
        obtain ⟨h1, -⟩ := h
        subst h1
        rw [List.filter_append, List.length_append]
        rcases List.mem_cons.mp hc with rfl | hcr
        · have hA' : A'.filter (fun a => a.course_id == c.id) = [] := by
            rw [List.filter_eq_nil]
            intro a haA
            obtain ⟨c2, hc2, hid⟩ :=
              run_matching_courses_course_ids loads pfloat students rest keys' A' S' hres' a haA
            have hne : a.course_id ≠ c.id := by
              rw [hid]
              intro heq
              exact hhead (heq ▸ List.mem_map_of_mem (fun c => c.id) hc2)
            simpa using hne
          rw [hA']
          simp only [List.length_nil, Nat.add_zero]
          have hle : ((created.filter (fun a => a.course_id == c.id)).length : ℤ) ≤
              (created.length : ℤ) := by
            exact_mod_cast List.length_filter_le _ _
          exact le_trans hle (matchCourse_spec _ _ _ _ _ _ _ _ hres).2
        · have hcreated : created.filter (fun a => a.course_id == c.id) = [] := by
            rw [List.filter_eq_nil]
            intro a haC
            have hid := (matchCourse_spec _ _ _ _ _ _ _ _ hres).1 a haC
            have hne : c'.id ≠ c.id := by
              intro heq
              exact hhead (heq ▸ List.mem_map_of_mem (fun c => c.id) hcr)
            rw [hid]
            simpa using hne
          rw [hcreated]
          simp only [List.length_nil, Nat.zero_add]
          exact ih keys' A' S' hres' hrest c hcr

/-! ## C1 : vacancy conservation, C3 : fully-assigned courses -/

/-- C1: in one run of `run_matching`, for every processed course the
number of created assignments for that course never exceeds
max(0, vacancies − existing assignment count), both taken at run start;
when that difference is ≤ 0 no assignment is created for the course. -/
theorem run_matching_vacancy_conservation (loads : String → Option JVal)
    (pfloat : List Char → Option ℚ) (db : MatchDb)
    (course_ids : Option (List ℕ)) (asgs : List Assignment) (skipped : List ℕ)
    (h : run_matching loads pfloat db course_ids = some (asgs, skipped))
    (hnodup : ((matchingCourses db course_ids).map (fun c => c.id)).Nodup)
    (c : Course) (hc : c ∈ matchingCourses db course_ids) :
    ((asgs.filter (fun a => a.course_id == c.id)).length : ℤ) ≤
      max 0 (c.vacancies - (c.assignments.length : ℤ)) ∧
    (c.vacancies - (c.assignments.length : ℤ) ≤ 0 →
      asgs.filter (fun a => a.course_id == c.id) = []) := by
  simp only [run_matching] at h
  have hb := run_matching_courses_filter_bound loads pfloat
    (matchingStudents db (matchingCourses db course_ids))
    (matchingCourses db course_ids)
    (db.assignments.map (fun a => (a.student_id, a.course_id)))
    asgs skipped h hnodup c hc
  refine ⟨hb, fun hle => ?_⟩
  rw [max_eq_left hle] at hb
  have : (asgs.filter (fun a => a.course_id == c.id)).length = 0 := by omega
  exact List.eq_nil_of_length_eq_zero this

/-- C3 (amended): re-running matching on a course whose existing
assignments already reach its vacancy count creates zero new assignments
for that course and appends nothing to the skipped list from that course's
processing: the course is skipped before any candidate is considered. -/
theorem run_matching_full_course_skip (loads : String → Option JVal)
    (pfloat : List Char → Option ℚ) (db : MatchDb)
    (course_ids : Option (List ℕ)) (asgs : List Assignment) (skipped : List ℕ)
    (h : run_matching loads pfloat db course_ids = some (asgs, skipped))
    (hnodup : ((matchingCourses db course_ids).map (fun c => c.id)).Nodup)
    (c : Course) (hc : c ∈ matchingCourses db course_ids)
    (hfull : c.vacancies ≤ (c.assignments.length : ℤ)) :
    asgs.filter (fun a => a.course_id == c.id) = [] ∧
    ∀ (students : List StudentProfile) (keys : List (ℕ × ℕ)),
      matchCourse loads pfloat students keys c = some ([], [], keys) := by
  constructor
  · simp only [run_matching] at h
    have hb := run_matching_courses_filter_bound loads pfloat
      (matchingStudents db (matchingCourses db course_ids))
      (matchingCourses db course_ids)
      (db.assignments.map (fun a => (a.student_id, a.course_id)))
      asgs skipped h hnodup c hc
    rw [max_eq_left (by omega)] at hb
    have : (asgs.filter (fun a => a.course_id == c.id)).length = 0 := by omega
    exact List.eq_nil_of_length_eq_zero this
  · intro students keys
    exact matchCourse_skip loads pfloat students keys c (by omega)

/-- Counterexample for C3 as stated: course 5 is fully assigned (one
vacancy, one existing assignment) and student 7 is a remaining candidate
(has a preference for course 5 and no assignment to it), yet the run
creates no assignment AND leaves the skipped-student list empty — the
remaining candidate is NOT appended to the skipped list, because the
course is skipped before its candidates are considered. -/
theorem rerun_full_course_cex :
    (cex3Student.preferences.any (fun p => p.course_id == cex3Course.id)) = true ∧
    ((cex3Db.assignments.map (fun a => (a.student_id, a.course_id))).contains
      (cex3Student.id, cex3Course.id)) = false ∧
    cex3Course.vacancies ≤ (cex3Course.assignments.length : ℤ) ∧
    run_matching loadsFail pfloatFail cex3Db none = some ([], []) :=
  ⟨rfl, rfl, by decide, rfl⟩

/-- Witness for C3 (amended) on the fully-assigned course 5. -/
theorem run_matching_full_course_skip_witness :
    ([] : List Assignment).filter (fun a => a.course_id == cex3Course.id) = [] ∧
    ∀ (students : List StudentProfile) (keys : List (ℕ × ℕ)),
      matchCourse loadsFail pfloatFail students keys cex3Course = some ([], [], keys) :=
  run_matching_full_course_skip loadsFail pfloatFail cex3Db none [] [] rfl
    (by decide) cex3Course (by decide) (by decide)

/-- The one-vacancy, two-candidate run: student 11 (rank 1) is assigned,
student 12 (rank 2) is skipped. -/
theorem run_matching_w1_eval : run_matching loadsFail pfloatFail w1Db none =
    some ([{ student_id := 11, course_id := 1, status := .pending }], [12]) := by
  have hA : evaluate_candidate loadsFail pfloatFail w1A w1Course = some 100000 := by
    have hsm : score_match loadsFail pfloatFail w1A w1Course = some ⟨∅, 0, 0⟩ := rfl
    have hf : w1A.preferences.find? (fun p => p.course_id == w1Course.id) =
        some { course_id := 1, rank := 1, faculty_requested := false,
               grade_in_course := none, basket_grade_average := none } := rfl
    have hfb : feedback_score w1A w1Course = 0 := rfl
    simp only [evaluate_candidate, hsm, hf, hfb]
    norm_num [preference_score, interest_bonus, grade_to_score, pyTruthy, w1A, w1Course]
  have hB : evaluate_candidate loadsFail pfloatFail w1B w1Course = some 90000 := by
    have hsm : score_match loadsFail pfloatFail w1B w1Course = some ⟨∅, 0, 0⟩ := rfl
    have hf : w1B.preferences.find? (fun p => p.course_id == w1Course.id) =
        some { course_id := 1, rank := 2, faculty_requested := false,
               grade_in_course := none, basket_grade_average := none } := rfl
    have hfb : feedback_score w1B w1Course = 0 := rfl
    simp only [evaluate_candidate, hsm, hf, hfb]
    norm_num [preference_score, interest_bonus, grade_to_score, pyTruthy, w1B, w1Course]
  have hcourses : matchingCourses w1Db none = [w1Course] := rfl
  have hstudents : matchingStudents w1Db [w1Course] = [w1A, w1B] := rfl
  have hkeys : w1Db.assignments.map (fun a => (a.student_id, a.course_id)) = [] := rfl
  have helig : ([w1A, w1B].filter (fun student =>
      (student.preferences.any (fun pref => pref.course_id == w1Course.id)) &&
      !(([] : List (ℕ × ℕ)).contains (student.id, w1Course.id)))) = [w1A, w1B] := rfl
  have hev : evalCandidates loadsFail pfloatFail w1Course [w1A, w1B] =
      some [⟨w1A, w1Course, 100000⟩, ⟨w1B, w1Course, 90000⟩] := by
    simp only [evalCandidates, hA, hB]
  have hsort : sortByScoreDesc [⟨w1A, w1Course, 100000⟩, ⟨w1B, w1Course, 90000⟩] =
      [⟨w1A, w1Course, 100000⟩, ⟨w1B, w1Course, 90000⟩] := by
    simp only [sortByScoreDesc, insertCandidateDesc]
    rw [if_neg (by norm_num)]
  have hmc : matchCourse loadsFail pfloatFail [w1A, w1B] [] w1Course =
      some ([{ student_id := 11, course_id := 1, status := .pending }], [12], [(11, 1)]) := by
    simp only [matchCourse]
    rw [if_neg (by decide)]
    rw [helig, hev]
    dsimp only
    rw [hsort]
    rfl
  simp only [run_matching, hcourses, hstudents, hkeys, run_matching_courses, hmc]
  rfl

/-- Witness for C1 on the one-vacancy, two-candidate run. -/
theorem run_matching_vacancy_conservation_witness :
    ((([{ student_id := 11, course_id := 1, status := .pending }] : List Assignment).filter
        (fun a => a.course_id == w1Course.id)).length : ℤ) ≤
      max 0 (w1Course.vacancies - (w1Course.assignments.length : ℤ)) ∧
    (w1Course.vacancies - (w1Course.assignments.length : ℤ) ≤ 0 →
      ([{ student_id := 11, course_id := 1, status := .pending }] : List Assignment).filter
        (fun a => a.course_id == w1Course.id) = []) :=
  run_matching_vacancy_conservation loadsFail pfloatFail w1Db none
    [{ student_id := 11, course_id := 1, status := .pending }] [12]
    run_matching_w1_eval (by decide) w1Course (by decide)
